import Mathlib

/-!
# Verification development for `generate.go` (package generatesomecerts)

The program builds X.509 certificate templates, asks the Go standard library to
generate keys, draw serial numbers and sign, and renders certificates as PEM.

Embedding conventions.

* A Go pointer is an `Option` of its referent (`none` is the nil pointer).
* A Go slice is a `List` (the nil slice is the empty list).
* A Go result pair `(v, err)` is a Lean pair whose second component is
  `Option GoError` (`none` is the nil error).
* The standard-library collaborators the program calls (`rsa.GenerateKey`,
  `time.Now`, `rand.Int`, `x509.CreateCertificate`, `net.ParseIP`, the two key
  marshallers) and the package variable `OrgName` are the fields of `World`.
  Every statement below is quantified over all worlds.
* A call either returns, panics or exits the process: `Outcome`. The signing primitive
  and the key marshallers panic on a nil pointer argument (`x509_CreateCertificate`,
  `x509_MarshalPKCS1PrivateKey`, `x509_MarshalECPrivateKey`); on other arguments the
  world says whether they return or panic.
* Text held in a Go string or byte slice is a list of characters, `Text`; the bytes of a
  certificate are a list of `Fin 256`.
* `encoding/pem` and `encoding/base64` are embedded as executable functions, since the
  round trip through `pem.Decode` is a statement about them; the loop of `pem.Decode`
  runs on a step budget of one more than the length of its input, each pass consuming
  at least one BEGIN marker.
-/

set_option maxRecDepth 100000

namespace Gimmecerts

/-! ## Basic Go values -/

/-- One byte of a Go byte slice. -/
abbrev Byte := Fin 256

/-- Go `[]byte`. -/
abbrev Bytes := List Byte

/-- Go `error` value, identified by the text of its `Error()` method. -/
structure GoError where
  msg : String
deriving DecidableEq, Repr

/-- Result of `fmt.Errorf(format, err)` for a format that is a fixed text followed by
one `%s` verb. -/
def Errorf (text : String) (err : GoError) : GoError :=
  ⟨text ++ err.msg⟩

/-- How a Go call ends. -/
inductive Outcome (α : Type) where
  | returned (a : α)
  | panicked
  | exited (code : Nat) (stderr : String)
deriving DecidableEq, Repr

/-! ## package time -/

/-- Wrap-around of an integer into the signed 64-bit range (Go `int64` arithmetic). -/
def wrapInt64 (x : Int) : Int :=
  (x + 2 ^ 63) % 2 ^ 64 - 2 ^ 63

/-- Go `time.Duration`: a signed 64-bit count of nanoseconds. -/
abbrev Duration := Int

/-- Product of two durations in `int64` arithmetic. -/
def Duration.mul (a b : Duration) : Duration :=
  wrapInt64 (a * b)

def Nanosecond : Duration := 1
def Microsecond : Duration := Duration.mul 1000 Nanosecond
def Millisecond : Duration := Duration.mul 1000 Microsecond
def Second : Duration := Duration.mul 1000 Millisecond
def Minute : Duration := Duration.mul 60 Second
def Hour : Duration := Duration.mul 60 Minute

/-- Go `time.Time`, as an instant counted in nanoseconds on an unbounded time line (the
times `time.Now` returns are far from the ends of the range of `time.Time`). -/
structure Time where
  nanos : Int
deriving DecidableEq, Repr

/-- Go `t.Add(d)`. -/
def Time.Add (t : Time) (d : Duration) : Time :=
  ⟨t.nanos + d⟩

/-- Go `u.Sub(t)`. -/
def Time.Sub (u t : Time) : Duration :=
  u.nanos - t.nanos

/-! ## package math/big -/

/-- Go `new(big.Int).Lsh(x, n)`. -/
def Lsh (x : Int) (n : Nat) : Int :=
  x * 2 ^ n

/-! ## packages crypto/rsa, crypto/ecdsa -/

structure RSAPublicKey where
  N : Nat
  E : Nat
deriving DecidableEq, Repr

/-- Go `rsa.PrivateKey`: the public key is an embedded field. -/
structure RSAPrivateKey where
  PublicKey : RSAPublicKey
  D : Nat
deriving DecidableEq, Repr

structure ECDSAPrivateKey where
  X : Nat
  Y : Nat
  D : Nat
deriving DecidableEq, Repr

/-! ## packages crypto/x509, crypto/x509/pkix, net -/

/-- Go `net.IP`, a byte slice. -/
abbrev IP := Bytes

def KeyUsageDigitalSignature : Nat := 1 <<< 0
def KeyUsageContentCommitment : Nat := 1 <<< 1
def KeyUsageKeyEncipherment : Nat := 1 <<< 2
def KeyUsageDataEncipherment : Nat := 1 <<< 3
def KeyUsageKeyAgreement : Nat := 1 <<< 4
def KeyUsageCertSign : Nat := 1 <<< 5
def KeyUsageCRLSign : Nat := 1 <<< 6
def KeyUsageEncipherOnly : Nat := 1 <<< 7
def KeyUsageDecipherOnly : Nat := 1 <<< 8

/-- Go `x509.ExtKeyUsage` (the first values of the enumeration). -/
inductive ExtKeyUsage where
  | ExtKeyUsageAny
  | ExtKeyUsageServerAuth
  | ExtKeyUsageClientAuth
  | ExtKeyUsageCodeSigning
  | ExtKeyUsageEmailProtection
deriving DecidableEq, Repr

/-- Go `pkix.Name`, the field the program sets. -/
structure Name where
  Organization : List String := []
deriving DecidableEq, Repr

/-- Go `x509.Certificate`, the fields the program sets; every field a composite
literal leaves out has its zero value. -/
structure Certificate where
  IsCA : Bool := false
  SerialNumber : Option Int := none
  Subject : Name := {}
  NotBefore : Time := ⟨0⟩
  NotAfter : Time := ⟨0⟩
  KeyUsage : Nat := 0
  ExtKeyUsage : List ExtKeyUsage := []
  BasicConstraintsValid : Bool := false
  DNSNames : List String := []
  IPAddresses : List IP := []
deriving DecidableEq, Repr

/-- Go `pem.Block`; the field `Type` is written `Type_`. -/
structure Block where
  Type_ : String
  Headers : List (String × String) := []
  Bytes : Bytes
deriving DecidableEq, Repr

/-! ## package encoding/base64, `StdEncoding` -/

/-- Go byte slice or string that holds text. -/
abbrev Text := List Char

/-- The alphabet of `base64.StdEncoding`. -/
def encodeStd : Text :=
  "ABCDEFGHIJKLMNOPQRSTUVWXYZabcdefghijklmnopqrstuvwxyz0123456789+/".toList

/-- Go `enc.encode[v]`. -/
def encodeChar (v : Nat) : Char :=
  encodeStd.getD v 'A'

/-- Go `enc.decodeMap[c]`; `none` stands for the entry `0xff` of a character outside the
alphabet. -/
def decodeChar (c : Char) : Option Nat :=
  if encodeStd.indexOf c < 64 then some (encodeStd.indexOf c) else none

/-- Go `base64.StdPadding`. -/
def padChar : Char := '='

/-- Go conversion `byte(n)`. -/
def toByte (n : Nat) : Byte :=
  ⟨n % 256, Nat.mod_lt n (by decide)⟩

/-- Go `base64.StdEncoding.Encode`: three bytes give four characters, a remainder of one
or two bytes is padded. -/
def base64Encode : Bytes → Text
  | a :: b :: c :: rest =>
    let val := a.val <<< 16 ||| b.val <<< 8 ||| c.val
    encodeChar (val >>> 18 &&& 0x3F) :: encodeChar (val >>> 12 &&& 0x3F) ::
      encodeChar (val >>> 6 &&& 0x3F) :: encodeChar (val &&& 0x3F) :: base64Encode rest
  | [a, b] =>
    let val := a.val <<< 16 ||| b.val <<< 8
    [encodeChar (val >>> 18 &&& 0x3F), encodeChar (val >>> 12 &&& 0x3F),
      encodeChar (val >>> 6 &&& 0x3F), padChar]
  | [a] =>
    let val := a.val <<< 16
    [encodeChar (val >>> 18 &&& 0x3F), encodeChar (val >>> 12 &&& 0x3F), padChar, padChar]
  | [] => []

/-- The quanta of `base64.StdEncoding.Decode` on input without line breaks: four
characters give three bytes; a final quantum may end in one or two padding characters;
anything else (a character outside the alphabet, an incomplete quantum, input after the
padding) is corrupt input, `none`. -/
def decodeQuanta : Text → Option Bytes
  | a :: b :: c :: d :: rest =>
    match decodeChar a, decodeChar b with
    | some x, some y =>
      if c = padChar then
        if d = padChar ∧ rest = [] then
          some [toByte ((x <<< 18 ||| y <<< 12) >>> 16)]
        else none
      else
        match decodeChar c with
        | none => none
        | some z =>
          if d = padChar then
            if rest = [] then
              some [toByte ((x <<< 18 ||| y <<< 12 ||| z <<< 6) >>> 16),
                toByte ((x <<< 18 ||| y <<< 12 ||| z <<< 6) >>> 8)]
            else none
          else
            match decodeChar d with
            | none => none
            | some t =>
              (decodeQuanta rest).map (fun out =>
                toByte ((x <<< 18 ||| y <<< 12 ||| z <<< 6 ||| t) >>> 16) ::
                  toByte ((x <<< 18 ||| y <<< 12 ||| z <<< 6 ||| t) >>> 8) ::
                  toByte (x <<< 18 ||| y <<< 12 ||| z <<< 6 ||| t) :: out)
    | _, _ => none
  | [] => some []
  | _ => none

/-- Go `base64.StdEncoding.Decode`: carriage returns and line feeds are skipped wherever
they stand, the other characters are decoded in quanta. -/
def base64Decode (src : Text) : Option Bytes :=
  decodeQuanta (src.filter (fun c => c ≠ '\n' ∧ c ≠ '\r'))

/-! ## package encoding/pem

`Encode`, `EncodeToMemory` and `Decode` of the standard library, with their helpers
`getLine`, `removeSpacesAndTabs` and the writer `lineBreaker`. -/

def pemStart : Text := "\n-----BEGIN ".toList
def pemEnd : Text := "\n-----END ".toList
def pemEndOfLine : Text := "-----".toList
def pemLineLength : Nat := 64

/-- Go `bytes.IndexByte` as a split: the text before and after the first `c`. -/
def cutByte (c : Char) : Text → Option (Text × Text)
  | [] => none
  | x :: xs => if x = c then some ([], xs) else (cutByte c xs).map (fun p => (x :: p.1, p.2))

/-- Go `bytes.Index(s, sep)`; `none` stands for `-1`. -/
def index (sep : Text) : Text → Option Nat
  | [] => if sep = [] then some 0 else none
  | x :: xs => if sep.isPrefixOf (x :: xs) then some 0 else (index sep xs).map (· + 1)

/-- Go `bytes.Cut(s, sep)`. -/
def cut (s sep : Text) : Option (Text × Text) :=
  (index sep s).map (fun i => (s.take i, s.drop (i + sep.length)))

/-- Go `bytes.TrimRight(s, " \t")`. -/
def trimRight (s : Text) : Text :=
  s.rdropWhile (fun c => c = ' ' ∨ c = '\t')

/-- White space for `bytes.TrimSpace`, among the ASCII and Latin-1 characters. -/
def isSpace (c : Char) : Bool :=
  c = ' ' ∨ c = '\t' ∨ c = '\n' ∨ c = '\r' ∨ c.toNat = 0x0B ∨ c.toNat = 0x0C ∨
    c.toNat = 0x85 ∨ c.toNat = 0xA0

/-- Go `bytes.TrimSpace`. -/
def trimSpace (s : Text) : Text :=
  (s.dropWhile isSpace).rdropWhile isSpace

/-- Go `getLine` of encoding/pem: the first line without its line ending and trailing
blanks, and the text after that line. -/
def getLine (data : Text) : Text × Text :=
  match cutByte '\n' data with
  | none => (trimRight data, [])
  | some (line, rest) =>
    (trimRight (if line.getLast? = some '\r' then line.dropLast else line), rest)

/-- Go `removeSpacesAndTabs` of encoding/pem. -/
def removeSpacesAndTabs (data : Text) : Text :=
  data.filter (fun c => c ≠ ' ' ∧ c ≠ '\t')

/-- The writer `lineBreaker` of encoding/pem fed with the characters `s` when `used`
characters stand in the current line: a line feed after every 64th character of a line,
and one at the end when the last line is not empty. -/
def lineBreaker : Nat → Text → Text
  | used, [] => if used > 0 then ['\n'] else []
  | used, c :: cs =>
    if used + 1 < pemLineLength then c :: lineBreaker (used + 1) cs
    else c :: '\n' :: lineBreaker 0 cs

/-- Go `writeHeader` of encoding/pem. -/
def writeHeader (k v : String) : Text :=
  k.toList ++ ": ".toList ++ v.toList ++ "\n".toList

/-- The header section `pem.Encode` writes: nothing without headers, else `Proc-Type`
first, the other keys in sorted order, and an empty line. -/
def encodeHeaders (headers : List (String × String)) : Text :=
  if headers.isEmpty then []
  else
    ((headers.filter (fun kv => kv.1 = "Proc-Type")).flatMap (fun kv => writeHeader kv.1 kv.2)) ++
      (((headers.filter (fun kv => kv.1 ≠ "Proc-Type")).mergeSort
        (fun a b => decide (a.1 ≤ b.1))).flatMap (fun kv => writeHeader kv.1 kv.2)) ++
      "\n".toList

/-- Go `pem.Encode` into a buffer; `none` is the error for a header key with a colon. -/
def Encode (b : Block) : Option Text :=
  if b.Headers.any (fun kv => kv.1.toList.contains ':') then none
  else
    some (pemStart.tail ++ b.Type_.toList ++ "-----\n".toList ++ encodeHeaders b.Headers ++
      lineBreaker 0 (base64Encode b.Bytes) ++
      pemEnd.tail ++ b.Type_.toList ++ "-----\n".toList)

/-- Go `pem.EncodeToMemory`: nil when `Encode` fails. -/
def EncodeToMemory (b : Block) : Text :=
  (Encode b).getD []

/-- The header loop of `pem.Decode`: reads `key: value` lines up to the first line without
a colon; `none` when the input ends first. -/
def readHeaders : Nat → Text → List (String × String) → Option (List (String × String) × Text)
  | _, [], _ => none
  | 0, _ :: _, _ => none
  | fuel + 1, c :: cs, headers =>
    match cut (getLine (c :: cs)).1 [':'] with
    | none => some (headers, c :: cs)
    | some (key, val) =>
      readHeaders fuel (getLine (c :: cs)).2
        (headers.filter (fun kv => kv.1 ≠ String.mk (trimSpace key)) ++
          [(String.mk (trimSpace key), String.mk (trimSpace val))])

/-- The loop of Go `pem.Decode(data)`, `rest` being the text still to search; every
`continue` of the Go loop is a recursive call. -/
def decodeLoop : Nat → Text → Text → Option Block × Text
  | 0, data, _ => (none, data)
  | fuel + 1, data, rest =>
    match (if pemStart.tail.isPrefixOf rest then some (rest.drop (pemStart.length - 1))
      else (cut rest pemStart).map (fun p => p.2)) with
    | none => (none, data)
    | some rest =>
      let typeLine := (getLine rest).1
      let rest := (getLine rest).2
      if ¬ pemEndOfLine.isSuffixOf typeLine then decodeLoop fuel data rest
      else
        let typeLine := typeLine.take (typeLine.length - pemEndOfLine.length)
        match readHeaders rest.length rest [] with
        | none => (none, data)
        | some (headers, rest) =>
          let direct := headers.isEmpty && pemEnd.tail.isPrefixOf rest
          match (if direct then some 0 else index pemEnd rest) with
          | none => decodeLoop fuel data rest
          | some endIndex =>
            let endTrailerIndex :=
              if direct then pemEnd.length - 1 else endIndex + pemEnd.length
            let endTrailer := rest.drop endTrailerIndex
            let endTrailerLen := typeLine.length + pemEndOfLine.length
            if endTrailer.length < endTrailerLen then decodeLoop fuel data rest
            else
              let restOfEndLine := endTrailer.drop endTrailerLen
              let endTrailer := endTrailer.take endTrailerLen
              if ¬ typeLine.isPrefixOf endTrailer ∨ ¬ pemEndOfLine.isSuffixOf endTrailer then
                decodeLoop fuel data rest
              else if (getLine restOfEndLine).1.length ≠ 0 then decodeLoop fuel data rest
              else
                match base64Decode (removeSpacesAndTabs (rest.take endIndex)) with
                | none => decodeLoop fuel data rest
                | some bytes =>
                  (some ⟨String.mk typeLine, headers, bytes⟩,
                    (getLine (rest.drop (endIndex + pemEnd.length - 1))).2)

/-- Go `pem.Decode(data)`: the first PEM block of `data` and the text after it, or nil
and `data`. -/
def Decode (data : Text) : Option Block × Text :=
  decodeLoop (data.length + 1) data data

/-! ## generate.go -/

/-- Go `type Cert struct`. -/
structure Cert where
  Template : Option Certificate
  DER : Bytes
  PrivateKey : Option RSAPrivateKey
deriving DecidableEq, Repr

/-- Zero value `Cert{}`. -/
def Cert.zero : Cert :=
  ⟨none, [], none⟩

/-- Go `func (cert Cert) String() string`. -/
def Cert.String (cert : Cert) : String :=
  String.mk (EncodeToMemory { Type_ := "CERTIFICATE", Bytes := cert.DER })

/-- Arguments of one call `x509.CreateCertificate(rand.Reader, template, parent, pub, priv)`. -/
structure SignCall where
  template : Certificate
  parent : Option Certificate
  pub : RSAPublicKey
  priv : Option RSAPrivateKey
deriving DecidableEq, Repr

/-- The package variable and the standard-library collaborators of the program. -/
structure World where
  /-- Current value of the package variable `OrgName`. -/
  OrgName : String
  /-- Result of `rsa.GenerateKey(rand.Reader, bits)`. -/
  GenerateKey : Nat → Option RSAPrivateKey × Option GoError
  /-- Result of `time.Now()`. -/
  Now : Time
  /-- Result of `rand.Int(rand.Reader, max)`. -/
  RandInt : Int → Option Int × Option GoError
  /-- What `x509.CreateCertificate` does when its parent and its signing key are not
  nil: it returns `(der, err)` or panics. -/
  CreateCertificate : SignCall → Outcome (Bytes × Option GoError)
  /-- Result of `net.ParseIP` (`none` is the nil IP). -/
  ParseIP : String → Option IP
  /-- What `x509.MarshalPKCS1PrivateKey` does on a pointer that is not nil: it returns the
  encoding or panics. -/
  MarshalPKCS1PrivateKey : RSAPrivateKey → Outcome Bytes
  /-- What `x509.MarshalECPrivateKey` does on a pointer that is not nil: it returns
  `(der, err)` or panics. -/
  MarshalECPrivateKey : ECDSAPrivateKey → Outcome (Bytes × Option GoError)

/-- Go `x509.CreateCertificate(rand.Reader, template, parent, pub, priv)`: the library
reads the parent certificate and calls the `Public` method of the signing key, so a nil
parent or a nil `*rsa.PrivateKey` is a nil pointer dereference, a panic. -/
def x509_CreateCertificate (w : World) (call : SignCall) : Outcome (Bytes × Option GoError) :=
  match call.parent, call.priv with
  | some _, some _ => w.CreateCertificate call
  | _, _ => .panicked

/-- Go `x509.MarshalPKCS1PrivateKey(key)`: a nil key is dereferenced, a panic. -/
def x509_MarshalPKCS1PrivateKey (w : World) (key : Option RSAPrivateKey) : Outcome Bytes :=
  match key with
  | some k => w.MarshalPKCS1PrivateKey k
  | none => .panicked

/-- Go `x509.MarshalECPrivateKey(key)`: a nil key is dereferenced, a panic. -/
def x509_MarshalECPrivateKey (w : World) (key : Option ECDSAPrivateKey) :
    Outcome (Bytes × Option GoError) :=
  match key with
  | some k => w.MarshalECPrivateKey k
  | none => .panicked

/-- What one call of `CA` or `SignedCert` did. -/
structure Run where
  /-- The bound handed to `rand.Int`. -/
  randLimit : Int
  /-- The call of the signing primitive, when it was reached. -/
  signCall : Option SignCall
  /-- How the call ended: the returned pair `(Cert, error)`, or a panic. -/
  outcome : Outcome (Cert × Option GoError)

/-- Go `func CA() (Cert, error)`. -/
def CA (w : World) : Run :=
  let cert : Option Certificate := none
  let caPriv := (w.GenerateKey 512).1
  let notBefore := w.Now
  let notAfter := notBefore.Add (Duration.mul (Duration.mul Hour 24) 10000)
  let serialNumberLimit := Lsh 1 128
  let serialNumber := (w.RandInt serialNumberLimit).1
  match (w.RandInt serialNumberLimit).2 with
  | some err =>
    { randLimit := serialNumberLimit
      signCall := none
      outcome := .returned (Cert.zero, some (Errorf "failed to generate serial number: " err)) }
  | none =>
    let caTemplate : Certificate :=
      { IsCA := true
        SerialNumber := serialNumber
        Subject := { Organization := [w.OrgName] }
        NotBefore := notBefore
        NotAfter := notAfter
        KeyUsage := KeyUsageKeyEncipherment ||| KeyUsageDigitalSignature
        ExtKeyUsage := [ExtKeyUsage.ExtKeyUsageServerAuth]
        BasicConstraintsValid := true }
    let caTemplate := { caTemplate with KeyUsage := caTemplate.KeyUsage ||| KeyUsageCertSign }
    match caPriv with
    | none =>
      -- caPriv.Public() evaluates &caPriv.PublicKey on a nil pointer
      { randLimit := serialNumberLimit, signCall := none, outcome := .panicked }
    | some k =>
      let call : SignCall :=
        { template := caTemplate, parent := some caTemplate, pub := k.PublicKey, priv := caPriv }
      { randLimit := serialNumberLimit
        signCall := some call
        outcome :=
          match x509_CreateCertificate w call with
          | .returned (_, some err) =>
            .returned (Cert.zero, some (Errorf "Failed to create certificate: " err))
          | .returned (certBytes, none) => .returned (⟨cert, certBytes, caPriv⟩, none)
          | .panicked => .panicked
          | .exited code text => .exited code text }

/-- The loop `for _, h := range hosts` of `SignedCert`. -/
def classifyHosts (w : World) (hosts : List String) (template : Certificate) : Certificate :=
  hosts.foldl
    (fun t h =>
      match w.ParseIP h with
      | some ip => { t with IPAddresses := t.IPAddresses ++ [ip] }
      | none => { t with DNSNames := t.DNSNames ++ [h] })
    template

/-- Go `func (ca Cert) SignedCert(hosts ...string) (Cert, error)`. -/
def SignedCert (w : World) (ca : Cert) (hosts : List String) : Run :=
  let cert : Cert := Cert.zero
  let certTemplate : Option Certificate := none
  let priv := (w.GenerateKey 512).1
  let notBefore := w.Now
  let notAfter := notBefore.Add (Duration.mul (Duration.mul Hour 24) 10000)
  let serialNumberLimit := Lsh 1 128
  let serialNumber := (w.RandInt serialNumberLimit).1
  match (w.RandInt serialNumberLimit).2 with
  | some err =>
    { randLimit := serialNumberLimit
      signCall := none
      outcome := .returned (cert, some (Errorf "failed to generate serial number: " err)) }
  | none =>
    let template : Certificate :=
      { SerialNumber := serialNumber
        Subject := { Organization := [w.OrgName] }
        NotBefore := notBefore
        NotAfter := notAfter
        KeyUsage := KeyUsageKeyEncipherment ||| KeyUsageDigitalSignature
        ExtKeyUsage := [ExtKeyUsage.ExtKeyUsageServerAuth]
        BasicConstraintsValid := true }
    let template := { template with KeyUsage := template.KeyUsage ||| KeyUsageCertSign }
    let template := classifyHosts w hosts template
    match priv with
    | none =>
      -- priv.Public() evaluates &priv.PublicKey on a nil pointer
      { randLimit := serialNumberLimit, signCall := none, outcome := .panicked }
    | some k =>
      let call : SignCall :=
        { template := template, parent := ca.Template, pub := k.PublicKey, priv := ca.PrivateKey }
      { randLimit := serialNumberLimit
        signCall := some call
        outcome :=
          match x509_CreateCertificate w call with
          | .returned (_, some err) =>
            .returned (cert, some (Errorf "Failed to create certificate: " err))
          | .returned (certBytes, none) => .returned (⟨certTemplate, certBytes, priv⟩, none)
          | .panicked => .panicked
          | .exited code text => .exited code text }

/-- Dynamic type and value of a Go `interface{}` argument, as far as the type switch of
`pemBlockForKey` tells values apart. -/
inductive GoValue where
  /-- A value of dynamic type `*rsa.PrivateKey`. -/
  | rsaPrivateKey (k : Option RSAPrivateKey)
  /-- A value of dynamic type `*ecdsa.PrivateKey`. -/
  | ecdsaPrivateKey (k : Option ECDSAPrivateKey)
  /-- A value of any other dynamic type (named), the nil interface included. -/
  | other (typeName : String)
deriving DecidableEq, Repr

/-- Go `func pemBlockForKey(priv interface{}) *pem.Block`. -/
def pemBlockForKey (w : World) (priv : GoValue) : Outcome (Option Block) :=
  match priv with
  | .rsaPrivateKey k =>
    match x509_MarshalPKCS1PrivateKey w k with
    | .returned b => .returned (some { Type_ := "RSA PRIVATE KEY", Bytes := b })
    | .panicked => .panicked
    | .exited code text => .exited code text
  | .ecdsaPrivateKey k =>
    match x509_MarshalECPrivateKey w k with
    | .returned (_, some err) => .exited 2 ("Unable to marshal ECDSA private key: " ++ err.msg)
    | .returned (b, none) => .returned (some { Type_ := "EC PRIVATE KEY", Bytes := b })
    | .panicked => .panicked
    | .exited code text => .exited code text
  | .other _ => .returned none

/-- What `CA` and `SignedCert` make of the outcome of the signing primitive, the key
generated in the call being `priv`. -/
def signedOutcome (r : Outcome (Bytes × Option GoError)) (priv : Option RSAPrivateKey) :
    Outcome (Cert × Option GoError) :=
  match r with
  | .returned (_, some err) =>
    .returned (Cert.zero, some (Errorf "Failed to create certificate: " err))
  | .returned (certBytes, none) => .returned (⟨none, certBytes, priv⟩, none)
  | .panicked => .panicked
  | .exited code text => .exited code text

/-! ## A concrete world -/

def sampleKey : RSAPrivateKey :=
  ⟨⟨3233, 17⟩, 2753⟩

def loopback4 : IP :=
  [0, 0, 0, 0, 0, 0, 0, 0, 0, 0, 255, 255, 127, 0, 0, 1]

def loopback6 : IP :=
  [0, 0, 0, 0, 0, 0, 0, 0, 0, 0, 0, 0, 0, 0, 0, 1]

/-- A world in which every collaborator succeeds; its resolver knows the two loopback
literals. -/
def sampleWorld : World where
  OrgName := "Acme Co"
  GenerateKey := fun _ => (some sampleKey, none)
  Now := ⟨1700000000000000000⟩
  RandInt := fun max => (some (123456789 % max), none)
  CreateCertificate := fun _ => .returned ([48, 130, 1, 10], none)
  ParseIP := fun h =>
    if h = "127.0.0.1" then some loopback4 else if h = "::1" then some loopback6 else none
  MarshalPKCS1PrivateKey := fun _ => .returned [48, 130]
  MarshalECPrivateKey := fun _ => .returned ([48, 119], none)

/-- The sample world with a random source that fails. -/
def serialFailureWorld : World :=
  { sampleWorld with RandInt := fun _ => (none, some ⟨"EOF"⟩) }

/-- The sample world with a signing primitive that fails. -/
def signFailureWorld : World :=
  { sampleWorld with
    CreateCertificate := fun _ => .returned ([], some ⟨"x509: unsupported key"⟩)
    MarshalECPrivateKey := fun _ => .returned ([], some ⟨"x509: unknown elliptic curve"⟩) }

/-- The sample world with a key generator that fails. -/
def keyFailureWorld : World :=
  { sampleWorld with GenerateKey := fun _ => (none, some ⟨"crypto/rsa: key too small"⟩) }

/-- An authority that holds a template and a key of its own. -/
def sampleAuthority : Cert :=
  ⟨some { IsCA := true, SerialNumber := some 7, Subject := { Organization := ["Acme Co"] } },
    [48, 130, 1, 10], some ⟨⟨77, 3⟩, 5⟩⟩

/-- The certificate `CA` returns in the sample world. -/
def sampleRoot : Cert :=
  ⟨none, [48, 130, 1, 10], some sampleKey⟩

/-- The template `SignedCert` builds in the sample world for the given SAN lists. -/
def sampleLeafTemplate (dns : List String) (ips : List IP) : Certificate :=
  { SerialNumber := some 123456789
    Subject := { Organization := ["Acme Co"] }
    NotBefore := ⟨1700000000000000000⟩
    NotAfter := ⟨2564000000000000000⟩
    KeyUsage := 37
    ExtKeyUsage := [ExtKeyUsage.ExtKeyUsageServerAuth]
    BasicConstraintsValid := true
    DNSNames := dns
    IPAddresses := ips }

/-- The template `CA` builds in the sample world. -/
def sampleRootTemplate : Certificate :=
  { sampleLeafTemplate [] [] with IsCA := true }

/-! ## Reaching the signing primitive -/

theorem classifyHosts_spec (w : World) (hosts : List String) (t : Certificate) :
    classifyHosts w hosts t =
      { t with
        IPAddresses := t.IPAddresses ++ hosts.filterMap w.ParseIP
        DNSNames := t.DNSNames ++ hosts.filter (fun h => (w.ParseIP h).isNone) } := by
  induction hosts generalizing t with
  | nil => simp [classifyHosts]
  | cons h hs ih =>
    unfold classifyHosts at ih ⊢
    rw [List.foldl_cons, ih]
    cases hp : w.ParseIP h <;> simp [List.filterMap_cons, List.filter_cons, hp]

theorem CA_signCall (w : World) (call : SignCall) :
    (CA w).signCall = some call ↔
      (w.RandInt (Lsh 1 128)).2 = none ∧ ∃ k, (w.GenerateKey 512).1 = some k ∧
        call =
          { template :=
              { IsCA := true
                SerialNumber := (w.RandInt (Lsh 1 128)).1
                Subject := { Organization := [w.OrgName] }
                NotBefore := w.Now
                NotAfter := w.Now.Add (Duration.mul (Duration.mul Hour 24) 10000)
                KeyUsage := KeyUsageKeyEncipherment ||| KeyUsageDigitalSignature ||| KeyUsageCertSign
                ExtKeyUsage := [ExtKeyUsage.ExtKeyUsageServerAuth]
                BasicConstraintsValid := true }
            parent := some
              { IsCA := true
                SerialNumber := (w.RandInt (Lsh 1 128)).1
                Subject := { Organization := [w.OrgName] }
                NotBefore := w.Now
                NotAfter := w.Now.Add (Duration.mul (Duration.mul Hour 24) 10000)
                KeyUsage := KeyUsageKeyEncipherment ||| KeyUsageDigitalSignature ||| KeyUsageCertSign
                ExtKeyUsage := [ExtKeyUsage.ExtKeyUsageServerAuth]
                BasicConstraintsValid := true }
            pub := k.PublicKey
            priv := some k } := by
  unfold CA
  cases hr : (w.RandInt (Lsh 1 128)).2 with
  | some e => simp [hr]
  | none =>
    cases hk : (w.GenerateKey 512).1 with
    | none => simp [hr, hk]
    | some k => simp [hr, hk, eq_comm]

theorem SignedCert_signCall (w : World) (ca : Cert) (hosts : List String) (call : SignCall) :
    (SignedCert w ca hosts).signCall = some call ↔
      (w.RandInt (Lsh 1 128)).2 = none ∧ ∃ k, (w.GenerateKey 512).1 = some k ∧
        call =
          { template :=
              { SerialNumber := (w.RandInt (Lsh 1 128)).1
                Subject := { Organization := [w.OrgName] }
                NotBefore := w.Now
                NotAfter := w.Now.Add (Duration.mul (Duration.mul Hour 24) 10000)
                KeyUsage := KeyUsageKeyEncipherment ||| KeyUsageDigitalSignature ||| KeyUsageCertSign
                ExtKeyUsage := [ExtKeyUsage.ExtKeyUsageServerAuth]
                BasicConstraintsValid := true
                DNSNames := hosts.filter (fun h => (w.ParseIP h).isNone)
                IPAddresses := hosts.filterMap w.ParseIP }
            parent := ca.Template
            pub := k.PublicKey
            priv := ca.PrivateKey } := by
  unfold SignedCert
  cases hr : (w.RandInt (Lsh 1 128)).2 with
  | some e => simp [hr]
  | none =>
    cases hk : (w.GenerateKey 512).1 with
    | none => simp [hr, hk]
    | some k => simp [hr, hk, eq_comm, classifyHosts_spec]

theorem x509_CreateCertificate_nil (w : World) (call : SignCall)
    (h : call.parent = none ∨ call.priv = none) : x509_CreateCertificate w call = .panicked := by
  unfold x509_CreateCertificate
  rcases h with h | h
  · rw [h]
  · rw [h]
    cases call.parent <;> rfl

theorem x509_CreateCertificate_some (w : World) (call : SignCall) (t : Certificate)
    (k : RSAPrivateKey) (ht : call.parent = some t) (hk : call.priv = some k) :
    x509_CreateCertificate w call = w.CreateCertificate call := by
  unfold x509_CreateCertificate
  rw [ht, hk]

/-- The three ways a call of `CA` can go. -/
theorem CA_run (w : World) :
    (∃ e, (w.RandInt (Lsh 1 128)).2 = some e ∧ (CA w).signCall = none ∧
        (CA w).outcome =
          .returned (Cert.zero, some (Errorf "failed to generate serial number: " e))) ∨
      ((w.RandInt (Lsh 1 128)).2 = none ∧ (w.GenerateKey 512).1 = none ∧
        (CA w).signCall = none ∧ (CA w).outcome = .panicked) ∨
      (∃ call k, (w.RandInt (Lsh 1 128)).2 = none ∧ (w.GenerateKey 512).1 = some k ∧
        (CA w).signCall = some call ∧
        (CA w).outcome = signedOutcome (x509_CreateCertificate w call) (some k)) := by
  cases hr : (w.RandInt (Lsh 1 128)).2 with
  | some e =>
    unfold CA
    simp [hr]
  | none =>
    cases hk : (w.GenerateKey 512).1 with
    | none =>
      unfold CA
      simp [hr, hk]
    | some k =>
      have hc := (CA_signCall w _).2 ⟨hr, k, hk, rfl⟩
      refine Or.inr (Or.inr ⟨_, k, rfl, rfl, hc, ?_⟩)
      unfold CA signedOutcome
      simp only [hr, hk]

/-- The three ways a call of `SignedCert` can go. -/
theorem SignedCert_run (w : World) (ca : Cert) (hosts : List String) :
    (∃ e, (w.RandInt (Lsh 1 128)).2 = some e ∧ (SignedCert w ca hosts).signCall = none ∧
        (SignedCert w ca hosts).outcome =
          .returned (Cert.zero, some (Errorf "failed to generate serial number: " e))) ∨
      ((w.RandInt (Lsh 1 128)).2 = none ∧ (w.GenerateKey 512).1 = none ∧
        (SignedCert w ca hosts).signCall = none ∧ (SignedCert w ca hosts).outcome = .panicked) ∨
      (∃ call k, (w.RandInt (Lsh 1 128)).2 = none ∧ (w.GenerateKey 512).1 = some k ∧
        (SignedCert w ca hosts).signCall = some call ∧
        (SignedCert w ca hosts).outcome =
          signedOutcome (x509_CreateCertificate w call) (some k)) := by
  cases hr : (w.RandInt (Lsh 1 128)).2 with
  | some e =>
    unfold SignedCert
    simp [hr]
  | none =>
    cases hk : (w.GenerateKey 512).1 with
    | none =>
      unfold SignedCert
      simp [hr, hk]
    | some k =>
      have hc := (SignedCert_signCall w ca hosts _).2 ⟨hr, k, hk, rfl⟩
      refine Or.inr (Or.inr ⟨_, k, rfl, rfl, hc, ?_⟩)
      unfold SignedCert signedOutcome
      simp only [hr, hk, classifyHosts_spec, List.nil_append]

theorem signedOutcome_ok (r : Outcome (Bytes × Option GoError)) (priv : Option RSAPrivateKey)
    (c : Cert) : signedOutcome r priv = .returned (c, none) ↔
      r = .returned (c.DER, none) ∧ c.Template = none ∧ c.PrivateKey = priv := by
  unfold signedOutcome
  obtain ⟨t, d, p⟩ := c
  rcases r with ⟨der, _ | e⟩ | _ | ⟨code, text⟩
  · simp only [Outcome.returned.injEq, Prod.mk.injEq, Cert.mk.injEq, and_true]
    constructor
    · rintro ⟨h1, h2, h3⟩
      exact ⟨h2, h1.symm, h3.symm⟩
    · rintro ⟨h1, h2, h3⟩
      exact ⟨h2.symm, h1, h3.symm⟩
  · simp
  · simp
  · simp

theorem signedOutcome_error (r : Outcome (Bytes × Option GoError))
    (priv : Option RSAPrivateKey) (c : Cert) (e : GoError) :
    signedOutcome r priv = .returned (c, some e) ↔
      ∃ der e', r = .returned (der, some e') ∧ c = Cert.zero ∧
        e = Errorf "Failed to create certificate: " e' := by
  unfold signedOutcome
  rcases r with ⟨der, _ | e'⟩ | _ | ⟨code, text⟩
  · simp
  · simp only [Outcome.returned.injEq, Prod.mk.injEq, Option.some.injEq, exists_and_left]
    constructor
    · rintro ⟨h1, h2⟩
      exact ⟨der, e', ⟨rfl, rfl⟩, h1.symm, h2.symm⟩
    · rintro ⟨_, e'', ⟨_, h0⟩, h1, h2⟩
      subst h0
      exact ⟨h1.symm, h2.symm⟩
  · simp
  · simp

theorem signedOutcome_panicked (r : Outcome (Bytes × Option GoError))
    (priv : Option RSAPrivateKey) : signedOutcome r priv = .panicked ↔ r = .panicked := by
  unfold signedOutcome
  rcases r with ⟨der, _ | e'⟩ | _ | ⟨code, text⟩ <;> simp

/-- What `CA` returns when its error is nil. -/
theorem CA_returned_ok (w : World) (c : Cert) (h : (CA w).outcome = .returned (c, none)) :
    c.Template = none ∧ ∃ call k, (CA w).signCall = some call ∧
      x509_CreateCertificate w call = .returned (c.DER, none) ∧
      (w.GenerateKey 512).1 = some k ∧ c.PrivateKey = some k := by
  rcases CA_run w with ⟨e, _, _, ho⟩ | ⟨_, _, _, ho⟩ | ⟨call, k, _, hk, hc, ho⟩
  · rw [ho] at h
    simp at h
  · rw [ho] at h
    cases h
  · rw [ho] at h
    obtain ⟨h1, h2, h3⟩ := (signedOutcome_ok _ _ c).1 h
    exact ⟨h2, call, k, hc, h1, hk, h3⟩

/-- What `SignedCert` returns when its error is nil. -/
theorem SignedCert_returned_ok (w : World) (ca : Cert) (hosts : List String) (c : Cert)
    (h : (SignedCert w ca hosts).outcome = .returned (c, none)) :
    c.Template = none ∧ ∃ call k, (SignedCert w ca hosts).signCall = some call ∧
      x509_CreateCertificate w call = .returned (c.DER, none) ∧
      (w.GenerateKey 512).1 = some k ∧ c.PrivateKey = some k := by
  rcases SignedCert_run w ca hosts with ⟨e, _, _, ho⟩ | ⟨_, _, _, ho⟩ |
    ⟨call, k, _, hk, hc, ho⟩
  · rw [ho] at h
    simp at h
  · rw [ho] at h
    cases h
  · rw [ho] at h
    obtain ⟨h1, h2, h3⟩ := (signedOutcome_ok _ _ c).1 h
    exact ⟨h2, call, k, hc, h1, hk, h3⟩

/-- When `CA` returns an error. -/
theorem CA_returned_error (w : World) (c : Cert) (e : GoError) :
    (CA w).outcome = .returned (c, some e) ↔
      c = Cert.zero ∧
        ((∃ e', (w.RandInt (Lsh 1 128)).2 = some e' ∧
            e = Errorf "failed to generate serial number: " e') ∨
          ∃ call der e', (CA w).signCall = some call ∧
            x509_CreateCertificate w call = .returned (der, some e') ∧
            e = Errorf "Failed to create certificate: " e') := by
  rcases CA_run w with ⟨e0, hr, hc, ho⟩ | ⟨hr, _, hc, ho⟩ | ⟨call, k, hr, hk, hc, ho⟩
  · rw [ho]
    simp only [Outcome.returned.injEq, Prod.mk.injEq, Option.some.injEq, hr, hc]
    constructor
    · rintro ⟨h1, h2⟩
      exact ⟨h1.symm, Or.inl ⟨e0, rfl, h2.symm⟩⟩
    · rintro ⟨h1, ⟨e', h2, h3⟩ | ⟨call, _, _, h2, _⟩⟩
      · cases h2
        exact ⟨h1.symm, h3.symm⟩
      · cases h2
  · rw [ho]
    simp only [hr, hc]
    constructor
    · intro h
      cases h
    · rintro ⟨_, ⟨e', h2, _⟩ | ⟨call, _, _, h2, _⟩⟩
      · cases h2
      · cases h2
  · rw [ho, signedOutcome_error]
    simp only [hr, hc]
    constructor
    · rintro ⟨der, e', h1, h2, h3⟩
      exact ⟨h2, Or.inr ⟨call, der, e', rfl, h1, h3⟩⟩
    · rintro ⟨h1, ⟨e', h2, _⟩ | ⟨call', der, e', h2, h3, h4⟩⟩
      · cases h2
      · cases h2
        exact ⟨der, e', h3, h1, h4⟩

/-- When `SignedCert` returns an error. -/
theorem SignedCert_returned_error (w : World) (ca : Cert) (hosts : List String) (c : Cert)
    (e : GoError) :
    (SignedCert w ca hosts).outcome = .returned (c, some e) ↔
      c = Cert.zero ∧
        ((∃ e', (w.RandInt (Lsh 1 128)).2 = some e' ∧
            e = Errorf "failed to generate serial number: " e') ∨
          ∃ call der e', (SignedCert w ca hosts).signCall = some call ∧
            x509_CreateCertificate w call = .returned (der, some e') ∧
            e = Errorf "Failed to create certificate: " e') := by
  rcases SignedCert_run w ca hosts with ⟨e0, hr, hc, ho⟩ | ⟨hr, _, hc, ho⟩ |
    ⟨call, k, hr, hk, hc, ho⟩
  · rw [ho]
    simp only [Outcome.returned.injEq, Prod.mk.injEq, Option.some.injEq, hr, hc]
    constructor
    · rintro ⟨h1, h2⟩
      exact ⟨h1.symm, Or.inl ⟨e0, rfl, h2.symm⟩⟩
    · rintro ⟨h1, ⟨e', h2, h3⟩ | ⟨call, _, _, h2, _⟩⟩
      · cases h2
        exact ⟨h1.symm, h3.symm⟩
      · cases h2
  · rw [ho]
    simp only [hr, hc]
    constructor
    · intro h
      cases h
    · rintro ⟨_, ⟨e', h2, _⟩ | ⟨call, _, _, h2, _⟩⟩
      · cases h2
      · cases h2
  · rw [ho, signedOutcome_error]
    simp only [hr, hc]
    constructor
    · rintro ⟨der, e', h1, h2, h3⟩
      exact ⟨h2, Or.inr ⟨call, der, e', rfl, h1, h3⟩⟩
    · rintro ⟨h1, ⟨e', h2, _⟩ | ⟨call', der, e', h2, h3, h4⟩⟩
      · cases h2
      · cases h2
        exact ⟨der, e', h3, h1, h4⟩

/-- When `CA` or `SignedCert` panics. -/
theorem CA_panicked (w : World) :
    (CA w).outcome = .panicked ↔
      (w.RandInt (Lsh 1 128)).2 = none ∧
        ((w.GenerateKey 512).1 = none ∨
          ∃ call, (CA w).signCall = some call ∧ x509_CreateCertificate w call = .panicked) := by
  rcases CA_run w with ⟨e0, hr, hc, ho⟩ | ⟨hr, hk, hc, ho⟩ | ⟨call, k, hr, hk, hc, ho⟩
  · rw [ho]
    simp [hr]
  · rw [ho]
    simp [hr, hk]
  · rw [ho, signedOutcome_panicked]
    simp [hr, hk, hc]

theorem SignedCert_panicked (w : World) (ca : Cert) (hosts : List String) :
    (SignedCert w ca hosts).outcome = .panicked ↔
      (w.RandInt (Lsh 1 128)).2 = none ∧
        ((w.GenerateKey 512).1 = none ∨
          ∃ call, (SignedCert w ca hosts).signCall = some call ∧
            x509_CreateCertificate w call = .panicked) := by
  rcases SignedCert_run w ca hosts with ⟨e0, hr, hc, ho⟩ | ⟨hr, hk, hc, ho⟩ |
    ⟨call, k, hr, hk, hc, ho⟩
  · rw [ho]
    simp [hr]
  · rw [ho]
    simp [hr, hk]
  · rw [ho, signedOutcome_panicked]
    simp [hr, hk, hc]

/-! ## Arithmetic facts -/

theorem validity_value : Duration.mul (Duration.mul Hour 24) 10000 = 864000000000000000 := by
  decide

theorem keyUsage_value :
    KeyUsageKeyEncipherment ||| KeyUsageDigitalSignature ||| KeyUsageCertSign = 37 := by
  decide

theorem keyUsage_order :
    KeyUsageKeyEncipherment ||| KeyUsageDigitalSignature ||| KeyUsageCertSign =
      KeyUsageDigitalSignature ||| KeyUsageKeyEncipherment ||| KeyUsageCertSign := by
  decide

theorem Lsh_one_128 : Lsh 1 128 = 2 ^ 128 := by
  unfold Lsh
  exact one_mul _

theorem CA_randLimit (w : World) : (CA w).randLimit = 2 ^ 128 := by
  rw [← Lsh_one_128]
  unfold CA
  cases hr : (w.RandInt (Lsh 1 128)).2 with
  | some e => simp [hr]
  | none =>
    cases hk : (w.GenerateKey 512).1 with
    | none => simp [hr, hk]
    | some k => simp [hr, hk]

theorem SignedCert_randLimit (w : World) (ca : Cert) (hosts : List String) :
    (SignedCert w ca hosts).randLimit = 2 ^ 128 := by
  rw [← Lsh_one_128]
  unfold SignedCert
  cases hr : (w.RandInt (Lsh 1 128)).2 with
  | some e => simp [hr]
  | none =>
    cases hk : (w.GenerateKey 512).1 with
    | none => simp [hr, hk]
    | some k => simp [hr, hk]

theorem testBit_37 (i : Nat) : Nat.testBit 37 i = true ↔ i = 0 ∨ i = 2 ∨ i = 5 := by
  by_cases hi : i < 6
  · interval_cases i <;> decide
  · have h : Nat.testBit 37 i = false :=
      Nat.testBit_lt_two_pow (lt_of_lt_of_le (by decide : 37 < 2 ^ 6)
        (Nat.pow_le_pow_right (by decide) (Nat.le_of_not_lt hi)))
    simp only [h]
    constructor
    · intro hf
      cases hf
    · intro ho
      omega

/-! ## base64 round trip -/

theorem decodeChar_encodeChar (v : Nat) (hv : v < 64) : decodeChar (encodeChar v) = some v := by
  interval_cases v <;> rfl

theorem encodeChar_ne_padChar (v : Nat) (hv : v < 64) : encodeChar v ≠ padChar := by
  interval_cases v <;> decide

theorem encodeChar_mem (v : Nat) (hv : v < 64) : encodeChar v ∈ encodeStd := by
  interval_cases v <;> decide

theorem shiftLeft_lor (a b n : Nat) (h : b < 2 ^ n) : a <<< n ||| b = a * 2 ^ n + b := by
  rw [Nat.shiftLeft_eq, Nat.mul_comm, ← Nat.mul_add_lt_is_or h]

theorem and_0x3F (x : Nat) : x &&& 0x3F = x % 64 :=
  Nat.and_pow_two_sub_one_eq_mod x 6

theorem pack3 (a b c : Nat) (hb : b < 256) (hc : c < 256) :
    a <<< 16 ||| b <<< 8 ||| c = a * 65536 + b * 256 + c := by
  rw [Nat.lor_assoc, shiftLeft_lor b c 8 hc, shiftLeft_lor a _ 16 (by omega)]
  omega

theorem pack2 (a b : Nat) (hb : b < 256) :
    a <<< 16 ||| b <<< 8 = a * 65536 + b * 256 := by
  have h := pack3 a b 0 hb (by decide)
  rw [Nat.or_zero] at h
  omega

theorem unpack4 (x y z t : Nat) (hy : y < 64) (hz : z < 64) (ht : t < 64) :
    x <<< 18 ||| y <<< 12 ||| z <<< 6 ||| t = x * 262144 + y * 4096 + z * 64 + t := by
  rw [Nat.lor_assoc, Nat.lor_assoc, shiftLeft_lor z t 6 ht, shiftLeft_lor y _ 12 (by omega),
    shiftLeft_lor x _ 18 (by omega)]
  omega

theorem unpack3 (x y z : Nat) (hy : y < 64) (hz : z < 64) :
    x <<< 18 ||| y <<< 12 ||| z <<< 6 = x * 262144 + y * 4096 + z * 64 := by
  have h := unpack4 x y z 0 hy hz (by decide)
  rw [Nat.or_zero] at h
  omega

theorem unpack2 (x y : Nat) (hy : y < 64) :
    x <<< 18 ||| y <<< 12 = x * 262144 + y * 4096 := by
  have h := unpack3 x y 0 hy (by decide)
  rw [Nat.zero_shiftLeft, Nat.or_zero] at h
  omega

theorem toByte_eq (n : Nat) (a : Byte) (h : n % 256 = a.val) : toByte n = a :=
  Fin.ext h

theorem decodeQuanta_pad2 (x y : Nat) (hx : x < 64) (hy : y < 64) :
    decodeQuanta [encodeChar x, encodeChar y, padChar, padChar] =
      some [toByte ((x <<< 18 ||| y <<< 12) >>> 16)] := by
  simp only [decodeQuanta, decodeChar_encodeChar x hx, decodeChar_encodeChar y hy, if_true,
    and_self]

theorem decodeQuanta_pad1 (x y z : Nat) (hx : x < 64) (hy : y < 64) (hz : z < 64) :
    decodeQuanta [encodeChar x, encodeChar y, encodeChar z, padChar] =
      some [toByte ((x <<< 18 ||| y <<< 12 ||| z <<< 6) >>> 16),
        toByte ((x <<< 18 ||| y <<< 12 ||| z <<< 6) >>> 8)] := by
  simp only [decodeQuanta, decodeChar_encodeChar x hx, decodeChar_encodeChar y hy,
    decodeChar_encodeChar z hz, if_neg (encodeChar_ne_padChar z hz), if_true]

theorem decodeQuanta_full (x y z t : Nat) (hx : x < 64) (hy : y < 64) (hz : z < 64)
    (ht : t < 64) (rest : Text) :
    decodeQuanta (encodeChar x :: encodeChar y :: encodeChar z :: encodeChar t :: rest) =
      (decodeQuanta rest).map (fun out =>
        toByte ((x <<< 18 ||| y <<< 12 ||| z <<< 6 ||| t) >>> 16) ::
          toByte ((x <<< 18 ||| y <<< 12 ||| z <<< 6 ||| t) >>> 8) ::
          toByte (x <<< 18 ||| y <<< 12 ||| z <<< 6 ||| t) :: out) := by
  simp only [decodeQuanta, decodeChar_encodeChar x hx, decodeChar_encodeChar y hy,
    decodeChar_encodeChar z hz, decodeChar_encodeChar t ht,
    if_neg (encodeChar_ne_padChar z hz), if_neg (encodeChar_ne_padChar t ht)]

theorem sextet_lt (v : Nat) : v &&& 0x3F < 64 := by
  rw [and_0x3F]
  exact Nat.mod_lt _ (by decide)

theorem decodeQuanta_base64Encode : ∀ bs : Bytes, decodeQuanta (base64Encode bs) = some bs
  | [] => rfl
  | [a] => by
    have ha := a.isLt
    simp only [base64Encode]
    rw [decodeQuanta_pad2 _ _ (sextet_lt _) (sextet_lt _), unpack2 _ _ (sextet_lt _)]
    simp only [and_0x3F, Nat.shiftRight_eq_div_pow, Nat.shiftLeft_eq]
    congr 2
    apply toByte_eq
    omega
  | [a, b] => by
    have ha := a.isLt
    have hb := b.isLt
    simp only [base64Encode]
    rw [decodeQuanta_pad1 _ _ _ (sextet_lt _) (sextet_lt _) (sextet_lt _),
      unpack3 _ _ _ (sextet_lt _) (sextet_lt _), pack2 _ _ hb]
    simp only [and_0x3F, Nat.shiftRight_eq_div_pow]
    congr 2
    · apply toByte_eq
      omega
    · congr 1
      apply toByte_eq
      omega
  | a :: b :: c :: rest => by
    have ha := a.isLt
    have hb := b.isLt
    have hc := c.isLt
    simp only [base64Encode]
    rw [decodeQuanta_full _ _ _ _ (sextet_lt _) (sextet_lt _) (sextet_lt _) (sextet_lt _),
      decodeQuanta_base64Encode rest,
      unpack4 _ _ _ _ (sextet_lt _) (sextet_lt _) (sextet_lt _), pack3 _ _ _ hb hc]
    simp only [and_0x3F, Nat.shiftRight_eq_div_pow, Option.map_some']
    congr 2
    · apply toByte_eq
      omega
    · congr 1
      · apply toByte_eq
        omega
      · congr 1
        apply toByte_eq
        omega

theorem base64Encode_chars : ∀ (bs : Bytes) (c : Char), c ∈ base64Encode bs →
    c ∈ encodeStd ∨ c = padChar
  | [], c, h => by simp [base64Encode] at h
  | [a], c, h => by
    simp only [base64Encode, List.mem_cons, List.mem_singleton, List.not_mem_nil, or_false] at h
    rcases h with h | h | h | h
    · exact Or.inl (h ▸ encodeChar_mem _ (sextet_lt _))
    · exact Or.inl (h ▸ encodeChar_mem _ (sextet_lt _))
    · exact Or.inr h
    · exact Or.inr h
  | [a, b], c, h => by
    simp only [base64Encode, List.mem_cons, List.mem_singleton, List.not_mem_nil, or_false] at h
    rcases h with h | h | h | h
    · exact Or.inl (h ▸ encodeChar_mem _ (sextet_lt _))
    · exact Or.inl (h ▸ encodeChar_mem _ (sextet_lt _))
    · exact Or.inl (h ▸ encodeChar_mem _ (sextet_lt _))
    · exact Or.inr h
  | a :: b :: d :: rest, c, h => by
    simp only [base64Encode, List.mem_cons] at h
    rcases h with h | h | h | h | h
    · exact Or.inl (h ▸ encodeChar_mem _ (sextet_lt _))
    · exact Or.inl (h ▸ encodeChar_mem _ (sextet_lt _))
    · exact Or.inl (h ▸ encodeChar_mem _ (sextet_lt _))
    · exact Or.inl (h ▸ encodeChar_mem _ (sextet_lt _))
    · exact base64Encode_chars rest c h

theorem base64Encode_head (bs : Bytes) (h : bs ≠ []) :
    ∃ c cs, base64Encode bs = c :: cs ∧ c ∈ encodeStd := by
  match bs, h with
  | [a], _ => exact ⟨_, _, rfl, encodeChar_mem _ (sextet_lt _)⟩
  | [a, b], _ => exact ⟨_, _, rfl, encodeChar_mem _ (sextet_lt _)⟩
  | a :: b :: c :: rest, _ => exact ⟨_, _, rfl, encodeChar_mem _ (sextet_lt _)⟩

/-! ## The line breaker -/

theorem lineBreaker_eq (p : Char → Bool) (hp : p '\n' = false) : ∀ (s : Text), s ≠ [] →
    ∀ u : Nat, ∃ b, lineBreaker u s = b ++ ['\n'] ∧ b.head? = s.head? ∧
      (∀ c ∈ b, c ∈ s ∨ c = '\n') ∧ b.filter p = s.filter p
  | [c], _, u => by
    refine ⟨[c], ?_, rfl, fun x hx => Or.inl hx, rfl⟩
    by_cases hu : u + 1 < pemLineLength
    · simp [lineBreaker, hu]
    · simp [lineBreaker, hu]
  | c :: d :: cs, _, u => by
    by_cases hu : u + 1 < pemLineLength
    · obtain ⟨b, hb, _, hmem, hf⟩ := lineBreaker_eq p hp (d :: cs) (by simp) (u + 1)
      refine ⟨c :: b, ?_, rfl, ?_, ?_⟩
      · rw [lineBreaker, if_pos hu, hb]
        rfl
      · intro x hx
        rcases List.mem_cons.1 hx with hx | hx
        · exact Or.inl (hx ▸ List.mem_cons_self _ _)
        · rcases hmem x hx with h | h
          · exact Or.inl (List.mem_cons_of_mem _ h)
          · exact Or.inr h
      · by_cases hc : p c = true
        · rw [List.filter_cons_of_pos hc, List.filter_cons_of_pos hc, hf]
        · rw [List.filter_cons_of_neg hc, List.filter_cons_of_neg hc, hf]
    · obtain ⟨b, hb, _, hmem, hf⟩ := lineBreaker_eq p hp (d :: cs) (by simp) 0
      refine ⟨c :: '\n' :: b, ?_, rfl, ?_, ?_⟩
      · rw [lineBreaker, if_neg hu, hb]
        rfl
      · intro x hx
        rcases List.mem_cons.1 hx with hx | hx
        · exact Or.inl (hx ▸ List.mem_cons_self _ _)
        · rcases List.mem_cons.1 hx with hx | hx
          · exact Or.inr hx
          · rcases hmem x hx with h | h
            · exact Or.inl (List.mem_cons_of_mem _ h)
            · exact Or.inr h
      · have hn : ('\n' :: b).filter p = b.filter p :=
          List.filter_cons_of_neg (by simp [hp])
        by_cases hc : p c = true
        · rw [List.filter_cons_of_pos hc, List.filter_cons_of_pos hc, hn, hf]
        · rw [List.filter_cons_of_neg hc, List.filter_cons_of_neg hc, hn, hf]

/-! ## Searching text -/

theorem cutByte_append (c : Char) : ∀ (l r : Text), c ∉ l → cutByte c (l ++ c :: r) = some (l, r)
  | [], r, _ => by simp [cutByte]
  | x :: xs, r, h => by
    have hx : x ≠ c := fun he => h (he ▸ List.mem_cons_self _ _)
    have hxs : c ∉ xs := fun hm => h (List.mem_cons_of_mem _ hm)
    simp [cutByte, hx, cutByte_append c xs r hxs]

theorem cutByte_eq_some (c : Char) : ∀ (s l r : Text), cutByte c s = some (l, r) →
    s = l ++ c :: r
  | [], l, r, h => by simp [cutByte] at h
  | x :: xs, l, r, h => by
    by_cases hx : x = c
    · simp only [cutByte, if_pos hx, Option.some.injEq, Prod.mk.injEq] at h
      obtain ⟨rfl, rfl⟩ := h
      simp [hx]
    · simp only [cutByte, if_neg hx, Option.map_eq_some', Prod.mk.injEq] at h
      obtain ⟨⟨l', r'⟩, hc, rfl, rfl⟩ := h
      rw [cutByte_eq_some c xs l' r' hc]
      rfl

theorem trimRight_subset (s : Text) : ∀ c ∈ trimRight s, c ∈ s := by
  intro c hc
  exact (List.rdropWhile_prefix _ s).subset hc

theorem getLine_subset (s : Text) : ∀ c ∈ (getLine s).1, c ∈ s := by
  intro c hc
  unfold getLine at hc
  cases h : cutByte '\n' s with
  | none =>
    rw [h] at hc
    exact trimRight_subset s c hc
  | some p =>
    obtain ⟨l, r⟩ := p
    rw [h] at hc
    have hs := cutByte_eq_some '\n' s l r h
    have hl : c ∈ l := by
      have h1 := trimRight_subset _ c hc
      split at h1
      · exact List.mem_of_mem_dropLast h1
      · exact h1
    rw [hs]
    exact List.mem_append_left _ hl

theorem index_singleton_none (c : Char) : ∀ s : Text, c ∉ s → index [c] s = none
  | [], _ => by simp [index]
  | x :: xs, h => by
    have hx : c ≠ x := fun he => h (he ▸ List.mem_cons_self _ _)
    have hxs : c ∉ xs := fun hm => h (List.mem_cons_of_mem _ hm)
    simp [index, hx, index_singleton_none c xs hxs]

theorem index_pemEnd : ∀ (b tl : Text), '-' ∉ b →
    index pemEnd (b ++ (pemEnd ++ tl)) = some b.length
  | [], tl, _ => by
    have hp : pemEnd.isPrefixOf ('\n' :: ("-----END ".toList ++ tl)) = true :=
      List.isPrefixOf_iff_prefix.2 (List.prefix_append pemEnd tl)
    show index pemEnd ('\n' :: ("-----END ".toList ++ tl)) = some 0
    rw [index, if_pos hp]
  | x :: xs, tl, h => by
    have hxs : '-' ∉ xs := fun hm => h (List.mem_cons_of_mem _ hm)
    have hp : ¬ pemEnd.isPrefixOf (x :: (xs ++ (pemEnd ++ tl))) = true := by
      intro hpre
      obtain ⟨t, ht⟩ := List.isPrefixOf_iff_prefix.1 hpre
      cases xs with
      | nil =>
        have h2 := congrArg (fun l => l.get? 1) ht
        simp [pemEnd] at h2
      | cons y ys =>
        have h2 := congrArg (fun l => l.get? 1) ht
        simp only [pemEnd, List.cons_append] at h2
        have hy : y = '-' := by
          simpa using h2.symm
        exact hxs (hy ▸ List.mem_cons_self _ _)
    show index pemEnd (x :: (xs ++ (pemEnd ++ tl))) = some (xs.length + 1)
    rw [index, if_neg hp, index_pemEnd xs tl hxs]
    rfl

theorem readHeaders_no_colon (fuel : Nat) (c : Char) (cs : Text) (h : ':' ∉ c :: cs) :
    readHeaders (fuel + 1) (c :: cs) [] = some ([], c :: cs) := by
  have hl : ':' ∉ (getLine (c :: cs)).1 := fun hm => h (getLine_subset _ _ hm)
  simp only [readHeaders, cut, index_singleton_none ':' _ hl, Option.map_none']

theorem decodeLoop_certificate (fuel : Nat) (data b : Text) (bytes : Bytes)
    (hhead : ∃ c cs, b = c :: cs ∧ c ∈ encodeStd)
    (hchars : ∀ c ∈ b, c ∈ encodeStd ∨ c = padChar ∨ c = '\n')
    (hdec : base64Decode b = some bytes) :
    decodeLoop (fuel + 1) data
        ("-----BEGIN CERTIFICATE-----\n".toList ++
          (b ++ (pemEnd ++ "CERTIFICATE-----\n".toList))) =
      (some ⟨"CERTIFICATE", [], bytes⟩, []) := by
  have hno : ∀ x : Char, x ∉ encodeStd → x ≠ padChar → x ≠ '\n' → x ∉ b := by
    intro x h1 h2 h3 hx
    rcases hchars x hx with h | h | h
    · exact h1 h
    · exact h2 h
    · exact h3 h
  have hdash : '-' ∉ b := hno '-' (by decide) (by decide) (by decide)
  have hcolon : ':' ∉ b := hno ':' (by decide) (by decide) (by decide)
  have hblank : ' ' ∉ b := hno ' ' (by decide) (by decide) (by decide)
  have htab : '\t' ∉ b := hno '\t' (by decide) (by decide) (by decide)
  obtain ⟨c, cs, hb, hc⟩ := hhead
  have hcd : c ≠ '-' := fun he => hdash (hb ▸ he ▸ List.mem_cons_self _ _)
  have e1 : (if pemStart.tail.isPrefixOf ("-----BEGIN CERTIFICATE-----\n".toList ++
          (b ++ (pemEnd ++ "CERTIFICATE-----\n".toList))) = true then
        some (("-----BEGIN CERTIFICATE-----\n".toList ++
          (b ++ (pemEnd ++ "CERTIFICATE-----\n".toList))).drop (pemStart.length - 1))
      else (cut ("-----BEGIN CERTIFICATE-----\n".toList ++
          (b ++ (pemEnd ++ "CERTIFICATE-----\n".toList))) pemStart).map (fun p => p.2)) =
      some ("CERTIFICATE-----\n".toList ++ (b ++ (pemEnd ++ "CERTIFICATE-----\n".toList))) :=
    rfl
  have e2 : getLine ("CERTIFICATE-----\n".toList ++
      (b ++ (pemEnd ++ "CERTIFICATE-----\n".toList))) =
      ("CERTIFICATE-----".toList, b ++ (pemEnd ++ "CERTIFICATE-----\n".toList)) := rfl
  have e3 : ¬ (¬ pemEndOfLine.isSuffixOf "CERTIFICATE-----".toList = true) := by decide
  have e4 : readHeaders (b ++ (pemEnd ++ "CERTIFICATE-----\n".toList)).length
      (b ++ (pemEnd ++ "CERTIFICATE-----\n".toList)) [] =
      some ([], b ++ (pemEnd ++ "CERTIFICATE-----\n".toList)) := by
    have hcol : ':' ∉ c :: (cs ++ (pemEnd ++ "CERTIFICATE-----\n".toList)) := by
      intro hm
      have hm' : ':' ∈ b ++ (pemEnd ++ "CERTIFICATE-----\n".toList) := by
        rw [hb]
        exact hm
      rcases List.mem_append.1 hm' with h | h
      · exact hcolon h
      · revert h
        decide
    rw [hb]
    exact readHeaders_no_colon _ c _ hcol
  have e5 : (([] : List (String × String)).isEmpty &&
      pemEnd.tail.isPrefixOf (b ++ (pemEnd ++ "CERTIFICATE-----\n".toList))) = false := by
    rw [hb]
    simp [pemEnd, List.isPrefixOf, Ne.symm hcd]
  have e6 := index_pemEnd b "CERTIFICATE-----\n".toList hdash
  have e7 : (b ++ (pemEnd ++ "CERTIFICATE-----\n".toList)).drop (b.length + pemEnd.length) =
      "CERTIFICATE-----\n".toList := by
    rw [List.drop_append]
    rfl
  have e8 : (b ++ (pemEnd ++ "CERTIFICATE-----\n".toList)).take b.length = b :=
    List.take_left _ _
  have e9 : removeSpacesAndTabs b = b := by
    unfold removeSpacesAndTabs
    rw [List.filter_eq_self]
    intro x hx
    have h1 : x ≠ ' ' := fun he => hblank (he ▸ hx)
    have h2 : x ≠ '\t' := fun he => htab (he ▸ hx)
    simp [h1, h2]
  have e10 : (b ++ (pemEnd ++ "CERTIFICATE-----\n".toList)).drop
      (b.length + pemEnd.length - 1) = " CERTIFICATE-----\n".toList := by
    have hl : b.length + pemEnd.length - 1 = b.length + 9 := rfl
    rw [hl, List.drop_append]
    rfl
  unfold decodeLoop
  rw [e1]
  simp only [e2]
  rw [if_neg e3, e4]
  simp only [e5, e6, Bool.false_eq_true, if_false, e7, e8, e9, e10, hdec]
  rfl

/-! ## Claims -/

/-- C1: in the template `SignedCert` hands to the signing primitive, `IPAddresses` is the
list of parsed values of exactly the hosts `net.ParseIP` accepts and `DNSNames` the list of
exactly the hosts it rejects, both in input order: a host in `DNSNames` is not an IP
literal, every host lands in the list of its class, the two lengths add up to the number
of hosts, an empty host list gives two empty lists, and the hosts
`example.com, 127.0.0.1, ::1` give `DNSNames = [example.com]` and the two parsed
addresses, whenever the resolver classifies them so. -/
theorem SignedCert_classifies_hosts (w : World) (ca : Cert) (hosts : List String)
    (call : SignCall) (h : (SignedCert w ca hosts).signCall = some call) :
    call.template.IPAddresses = hosts.filterMap w.ParseIP ∧
      call.template.DNSNames = hosts.filter (fun x => (w.ParseIP x).isNone) ∧
      (∀ x ∈ call.template.DNSNames, x ∈ hosts ∧ w.ParseIP x = none) ∧
      (∀ ip ∈ call.template.IPAddresses, ∃ x ∈ hosts, w.ParseIP x = some ip) ∧
      (∀ x ∈ hosts, w.ParseIP x = none → x ∈ call.template.DNSNames) ∧
      (∀ x ∈ hosts, ∀ ip, w.ParseIP x = some ip →
        ip ∈ call.template.IPAddresses ∧ x ∉ call.template.DNSNames) ∧
      (∀ x, w.ParseIP x = none → call.template.DNSNames.count x = hosts.count x) ∧
      call.template.IPAddresses.length + call.template.DNSNames.length = hosts.length ∧
      (hosts = [] → call.template.IPAddresses = [] ∧ call.template.DNSNames = []) ∧
      (hosts = ["example.com", "127.0.0.1", "::1"] → ∀ a b : IP,
        w.ParseIP "example.com" = none → w.ParseIP "127.0.0.1" = some a →
        w.ParseIP "::1" = some b →
        call.template.DNSNames = ["example.com"] ∧ call.template.IPAddresses = [a, b]) := by
  obtain ⟨_, k, _, hc⟩ := (SignedCert_signCall w ca hosts call).1 h
  subst hc
  refine ⟨rfl, rfl, ?_, ?_, ?_, ?_, ?_, ?_, ?_, ?_⟩
  · intro x hx
    simpa using hx
  · intro ip hip
    simpa using hip
  · intro x hx hn
    simp [hx, hn]
  · intro x hx ip hip
    constructor
    · simp only [List.mem_filterMap]
      exact ⟨x, hx, hip⟩
    · simp [hip]
  · intro x hn
    simp only
    rw [List.count_filter]
    simp [hn]
  · simp only
    clear h
    induction hosts with
    | nil => simp
    | cons x xs ih =>
      cases hp : w.ParseIP x <;>
        simp [List.filterMap_cons, List.filter_cons, hp] <;> omega
  · intro he
    subst he
    simp
  · intro he a b h1 h2 h3
    subst he
    simp [List.filterMap_cons, List.filter_cons, h1, h2, h3]

/-- Witness of C1: in the sample world the three hosts are classified as the claim says. -/
theorem SignedCert_classifies_hosts_witness :
    (SignedCert sampleWorld sampleRoot ["example.com", "127.0.0.1", "::1"]).signCall =
        some ⟨sampleLeafTemplate ["example.com"] [loopback4, loopback6], none,
          sampleKey.PublicKey, some sampleKey⟩ ∧
      (sampleLeafTemplate ["example.com"] [loopback4, loopback6]).DNSNames = ["example.com"] ∧
      (sampleLeafTemplate ["example.com"] [loopback4, loopback6]).IPAddresses =
        [loopback4, loopback6] :=
  ⟨by rfl,
    (SignedCert_classifies_hosts sampleWorld sampleRoot ["example.com", "127.0.0.1", "::1"]
      ⟨sampleLeafTemplate ["example.com"] [loopback4, loopback6], none,
          sampleKey.PublicKey, some sampleKey⟩
      (by rfl)).2.2.2.2.2.2.2.2.2 rfl loopback4 loopback6 (by rfl) (by rfl) (by rfl)⟩

/-- C2 (the code departs from the claim): every `Cert` that `CA` or `SignedCert` returns
with a nil error has a nil `Template`, although a template was handed to the signing
primitive; its `DER` is the byte string the signing primitive returned and its
`PrivateKey` is the key generated in the call. In the sample world `CA` returns
`sampleRoot`, whose `Template` is nil, after signing `sampleRootTemplate`; a leaf of an
authority that holds a template and a key is returned with a nil `Template` too, and a
leaf of `sampleRoot` is not returned at all: the signing primitive panics on the nil
issuer. -/
theorem returned_Cert_Template_is_nil :
    (∀ (w : World) (c : Cert), (CA w).outcome = .returned (c, none) →
        c.Template = none ∧ ∃ call k, (CA w).signCall = some call ∧
          x509_CreateCertificate w call = .returned (c.DER, none) ∧
          (w.GenerateKey 512).1 = some k ∧ c.PrivateKey = some k) ∧
      (∀ (w : World) (ca : Cert) (hosts : List String) (c : Cert),
        (SignedCert w ca hosts).outcome = .returned (c, none) →
        c.Template = none ∧ ∃ call k, (SignedCert w ca hosts).signCall = some call ∧
          x509_CreateCertificate w call = .returned (c.DER, none) ∧
          (w.GenerateKey 512).1 = some k ∧ c.PrivateKey = some k) ∧
      (CA sampleWorld).outcome = .returned (sampleRoot, none) ∧
      (CA sampleWorld).signCall =
        some ⟨sampleRootTemplate, some sampleRootTemplate, sampleKey.PublicKey, some sampleKey⟩ ∧
      sampleRoot.Template = none ∧
      (SignedCert sampleWorld sampleAuthority ["example.com"]).signCall =
        some ⟨sampleLeafTemplate ["example.com"] [], sampleAuthority.Template,
          sampleKey.PublicKey, sampleAuthority.PrivateKey⟩ ∧
      (SignedCert sampleWorld sampleAuthority ["example.com"]).outcome =
        .returned (⟨none, [48, 130, 1, 10], some sampleKey⟩, none) ∧
      (SignedCert sampleWorld sampleRoot ["example.com"]).outcome = .panicked := by
  exact ⟨CA_returned_ok, SignedCert_returned_ok, by rfl, by rfl, rfl, by rfl, by rfl, by rfl⟩

/-- C3 (the code departs from the claim): the leaf template `SignedCert` hands to the
signing primitive has `IsCA = false`, as claimed, but the statement
`template.KeyUsage |= x509.KeyUsageCertSign` sets the certificate-signing bit on it: its
`KeyUsage` is digital signature (bit 0), key encipherment (bit 2) and certificate signing
(bit 5), the same as on the template built by `CA`, and so is not digital signature plus
key encipherment alone. Only the CA flag tells the two templates apart. -/
theorem leaf_template_flags (w : World) (ca : Cert) (hosts : List String) (call : SignCall)
    (h : (SignedCert w ca hosts).signCall = some call) :
    call.template.IsCA = false ∧
      call.template.KeyUsage =
        KeyUsageDigitalSignature ||| KeyUsageKeyEncipherment ||| KeyUsageCertSign ∧
      call.template.KeyUsage ≠ KeyUsageDigitalSignature ||| KeyUsageKeyEncipherment ∧
      call.template.KeyUsage &&& KeyUsageCertSign = KeyUsageCertSign ∧
      (∀ i, call.template.KeyUsage.testBit i = true ↔ i = 0 ∨ i = 2 ∨ i = 5) ∧
      ∀ rootCall, (CA w).signCall = some rootCall →
        rootCall.template.IsCA = true ∧
          rootCall.template.KeyUsage = call.template.KeyUsage := by
  obtain ⟨_, k, _, hc⟩ := (SignedCert_signCall w ca hosts call).1 h
  subst hc
  refine ⟨rfl, keyUsage_order, ?_, ?_, ?_, ?_⟩
  · simp only [keyUsage_value]
    decide
  · simp only [keyUsage_value]
    decide
  · intro i
    simp only [keyUsage_value]
    exact testBit_37 i
  · intro rootCall hr
    obtain ⟨_, k', _, hc'⟩ := (CA_signCall w rootCall).1 hr
    subst hc'
    exact ⟨rfl, rfl⟩

/-- Witness of C3: in the sample world the leaf template for no hosts has key usage 37,
which contains the certificate-signing bit 32. -/
theorem leaf_template_flags_witness :
    (SignedCert sampleWorld sampleRoot []).signCall =
        some ⟨sampleLeafTemplate [] [], none, sampleKey.PublicKey, some sampleKey⟩ ∧
      (sampleLeafTemplate [] []).KeyUsage = 37 ∧
      (sampleLeafTemplate [] []).IsCA = false ∧
      (sampleLeafTemplate [] []).KeyUsage ≠
        KeyUsageDigitalSignature ||| KeyUsageKeyEncipherment ∧
      (sampleLeafTemplate [] []).KeyUsage &&& KeyUsageCertSign = KeyUsageCertSign :=
  ⟨by rfl, rfl,
    (leaf_template_flags sampleWorld sampleRoot []
      ⟨sampleLeafTemplate [] [], none, sampleKey.PublicKey, some sampleKey⟩ (by rfl)).1,
    (leaf_template_flags sampleWorld sampleRoot []
      ⟨sampleLeafTemplate [] [], none, sampleKey.PublicKey, some sampleKey⟩ (by rfl)).2.2.1,
    (leaf_template_flags sampleWorld sampleRoot []
      ⟨sampleLeafTemplate [] [], none, sampleKey.PublicKey, some sampleKey⟩ (by rfl)).2.2.2.1⟩

/-- C4: the root template `CA` hands to the signing primitive has `IsCA = true`,
`BasicConstraintsValid = true`, a `KeyUsage` of exactly digital signature (bit 0), key
encipherment (bit 2) and certificate signing (bit 5), `ExtKeyUsage` the one-element list
of server authentication and `Subject.Organization` the one-element list of `OrgName`;
its serial number is the value `rand.Int` returned for the exclusive bound `2^128`, so it
lies in `[0, 2^128)` whenever the random source honours its bound. -/
theorem CA_template_fields (w : World) (call : SignCall) (h : (CA w).signCall = some call) :
    call.template.IsCA = true ∧
      call.template.BasicConstraintsValid = true ∧
      call.template.KeyUsage =
        KeyUsageDigitalSignature ||| KeyUsageKeyEncipherment ||| KeyUsageCertSign ∧
      (∀ i, call.template.KeyUsage.testBit i = true ↔ i = 0 ∨ i = 2 ∨ i = 5) ∧
      call.template.ExtKeyUsage = [ExtKeyUsage.ExtKeyUsageServerAuth] ∧
      call.template.Subject.Organization = [w.OrgName] ∧
      (CA w).randLimit = 2 ^ 128 ∧
      call.template.SerialNumber = (w.RandInt (2 ^ 128)).1 ∧
      ((∀ max n, (w.RandInt max).1 = some n → 0 ≤ n ∧ n < max) →
        ∀ n, call.template.SerialNumber = some n → 0 ≤ n ∧ n < 2 ^ 128) := by
  have hl : Lsh 1 128 = 2 ^ 128 := Lsh_one_128
  have hlim : (CA w).randLimit = 2 ^ 128 := CA_randLimit w
  obtain ⟨_, k, _, hc⟩ := (CA_signCall w call).1 h
  subst hc
  refine ⟨rfl, rfl, keyUsage_order, ?_, rfl, rfl, hlim, ?_, ?_⟩
  · intro i
    simp only [keyUsage_value]
    exact testBit_37 i
  · simp only [hl]
  · intro hon n hn
    simp only [hl] at hn
    exact hon _ n hn

/-- Witness of C4 in the sample world. -/
theorem CA_template_fields_witness :
    (CA sampleWorld).signCall =
        some ⟨sampleRootTemplate, some sampleRootTemplate, sampleKey.PublicKey, some sampleKey⟩ ∧
      sampleRootTemplate.IsCA = true ∧ sampleRootTemplate.BasicConstraintsValid = true :=
  ⟨by rfl,
    (CA_template_fields sampleWorld
      ⟨sampleRootTemplate, some sampleRootTemplate, sampleKey.PublicKey, some sampleKey⟩
      (by rfl)).1,
    (CA_template_fields sampleWorld
      ⟨sampleRootTemplate, some sampleRootTemplate, sampleKey.PublicKey, some sampleKey⟩
      (by rfl)).2.1⟩

/-- C5 (the code departs from the claim): for every `Cert` root that `CA` returns with a
nil error and every host list, the issuer template `root.SignedCert` hands to the signing
primitive is nil, because `root.Template` is nil. In the sample world the root is
`sampleRoot` and the issuer argument of the leaf for `example.com` is nil. -/
theorem root_SignedCert_issuer_is_nil :
    (∀ (w1 w2 : World) (root : Cert) (hosts : List String) (call : SignCall),
        (CA w1).outcome = .returned (root, none) →
        (SignedCert w2 root hosts).signCall = some call → call.parent = none) ∧
      (CA sampleWorld).outcome = .returned (sampleRoot, none) ∧
      (SignedCert sampleWorld sampleRoot ["example.com"]).signCall =
        some ⟨sampleLeafTemplate ["example.com"] [], none, sampleKey.PublicKey,
          some sampleKey⟩ := by
  refine ⟨?_, by rfl, by rfl⟩
  intro w1 w2 root hosts call hroot hcall
  obtain ⟨_, k, _, hc⟩ := (SignedCert_signCall w2 root hosts call).1 hcall
  subst hc
  exact (CA_returned_ok w1 root hroot).1

/-- C6: `CA` returns a non-nil error exactly when `rand.Int` returns an error or the
signing primitive is called and returns an error, and so does `SignedCert`; a call that
returns an error returns the zero `Cert`; when `rand.Int` and the signing primitive both
return without error, the call returns a nil error; the error result of `rsa.GenerateKey`
is never looked at, so replacing it changes nothing. A call that does not return panics:
on a nil generated key, or inside the signing primitive, which for `SignedCert` is always
so when the authority has a nil `Template` or a nil `PrivateKey`. -/
theorem errors_only_from_serial_or_signing (w : World) (ca : Cert) (hosts : List String) :
    ((∃ c e, (CA w).outcome = .returned (c, some e)) ↔
        ((w.RandInt (Lsh 1 128)).2 ≠ none ∨
          ∃ call der e, (CA w).signCall = some call ∧
            x509_CreateCertificate w call = .returned (der, some e))) ∧
      ((∃ c e, (SignedCert w ca hosts).outcome = .returned (c, some e)) ↔
        ((w.RandInt (Lsh 1 128)).2 ≠ none ∨
          ∃ call der e, (SignedCert w ca hosts).signCall = some call ∧
            x509_CreateCertificate w call = .returned (der, some e))) ∧
      (∀ c e, (CA w).outcome = .returned (c, some e) →
        c = Cert.zero ∧ c.Template = none ∧ c.DER = [] ∧ c.PrivateKey = none) ∧
      (∀ c e, (SignedCert w ca hosts).outcome = .returned (c, some e) →
        c = Cert.zero ∧ c.Template = none ∧ c.DER = [] ∧ c.PrivateKey = none) ∧
      ((w.RandInt (Lsh 1 128)).2 = none → ∀ call der, (CA w).signCall = some call →
        x509_CreateCertificate w call = .returned (der, none) →
        (CA w).outcome = .returned (⟨none, der, (w.GenerateKey 512).1⟩, none)) ∧
      ((w.RandInt (Lsh 1 128)).2 = none → ∀ call der,
        (SignedCert w ca hosts).signCall = some call →
        x509_CreateCertificate w call = .returned (der, none) →
        (SignedCert w ca hosts).outcome =
          .returned (⟨none, der, (w.GenerateKey 512).1⟩, none)) ∧
      (∀ c e, (CA w).outcome = .returned (c, e) → (w.RandInt (Lsh 1 128)).2 = none →
        (∀ call der e', (CA w).signCall = some call →
          x509_CreateCertificate w call ≠ .returned (der, some e')) → e = none) ∧
      (∀ c e, (SignedCert w ca hosts).outcome = .returned (c, e) →
        (w.RandInt (Lsh 1 128)).2 = none →
        (∀ call der e', (SignedCert w ca hosts).signCall = some call →
          x509_CreateCertificate w call ≠ .returned (der, some e')) → e = none) ∧
      ((CA w).outcome = .panicked ↔
        (w.RandInt (Lsh 1 128)).2 = none ∧
          ((w.GenerateKey 512).1 = none ∨
            ∃ call, (CA w).signCall = some call ∧
              x509_CreateCertificate w call = .panicked)) ∧
      ((SignedCert w ca hosts).outcome = .panicked ↔
        (w.RandInt (Lsh 1 128)).2 = none ∧
          ((w.GenerateKey 512).1 = none ∨
            ∃ call, (SignedCert w ca hosts).signCall = some call ∧
              x509_CreateCertificate w call = .panicked)) ∧
      ((w.RandInt (Lsh 1 128)).2 = none → (ca.Template = none ∨ ca.PrivateKey = none) →
        (SignedCert w ca hosts).outcome = .panicked) ∧
      (∀ err : Option GoError,
        CA { w with GenerateKey := fun bits => ((w.GenerateKey bits).1, err) } = CA w ∧
          SignedCert { w with GenerateKey := fun bits => ((w.GenerateKey bits).1, err) }
            ca hosts = SignedCert w ca hosts) := by
  refine ⟨⟨?_, ?_⟩, ⟨?_, ?_⟩, ?_, ?_, ?_, ?_, ?_, ?_, CA_panicked w,
    SignedCert_panicked w ca hosts, ?_, ?_⟩
  · rintro ⟨c, e, h⟩
    rcases ((CA_returned_error w c e).1 h).2 with ⟨e', hr, _⟩ | ⟨call, der, e', hc, hx, _⟩
    · exact Or.inl (by simp [hr])
    · exact Or.inr ⟨call, der, e', hc, hx⟩
  · rintro (h | ⟨call, der, e', hc, hx⟩)
    · obtain ⟨e', hr⟩ := Option.ne_none_iff_exists'.1 h
      exact ⟨Cert.zero, _, (CA_returned_error w _ _).2 ⟨rfl, Or.inl ⟨e', hr, rfl⟩⟩⟩
    · exact ⟨Cert.zero, _, (CA_returned_error w _ _).2 ⟨rfl, Or.inr ⟨call, der, e', hc, hx, rfl⟩⟩⟩
  · rintro ⟨c, e, h⟩
    rcases ((SignedCert_returned_error w ca hosts c e).1 h).2 with
      ⟨e', hr, _⟩ | ⟨call, der, e', hc, hx, _⟩
    · exact Or.inl (by simp [hr])
    · exact Or.inr ⟨call, der, e', hc, hx⟩
  · rintro (h | ⟨call, der, e', hc, hx⟩)
    · obtain ⟨e', hr⟩ := Option.ne_none_iff_exists'.1 h
      exact ⟨Cert.zero, _,
        (SignedCert_returned_error w ca hosts _ _).2 ⟨rfl, Or.inl ⟨e', hr, rfl⟩⟩⟩
    · exact ⟨Cert.zero, _,
        (SignedCert_returned_error w ca hosts _ _).2 ⟨rfl, Or.inr ⟨call, der, e', hc, hx, rfl⟩⟩⟩
  · intro c e h
    have hz := ((CA_returned_error w c e).1 h).1
    subst hz
    exact ⟨rfl, rfl, rfl, rfl⟩
  · intro c e h
    have hz := ((SignedCert_returned_error w ca hosts c e).1 h).1
    subst hz
    exact ⟨rfl, rfl, rfl, rfl⟩
  · intro hr call der hc hx
    rcases CA_run w with ⟨e0, hr', _, _⟩ | ⟨_, _, hc', _⟩ | ⟨call', k, _, hk, hc', ho⟩
    · rw [hr] at hr'
      cases hr'
    · rw [hc] at hc'
      cases hc'
    · rw [hc] at hc'
      cases hc'
      rw [ho, hx, hk]
      rfl
  · intro hr call der hc hx
    rcases SignedCert_run w ca hosts with ⟨e0, hr', _, _⟩ | ⟨_, _, hc', _⟩ |
      ⟨call', k, _, hk, hc', ho⟩
    · rw [hr] at hr'
      cases hr'
    · rw [hc] at hc'
      cases hc'
    · rw [hc] at hc'
      cases hc'
      rw [ho, hx, hk]
      rfl
  · intro c e h hr hs
    cases e with
    | none => rfl
    | some e =>
      rcases ((CA_returned_error w c e).1 h).2 with ⟨e', hr', _⟩ | ⟨call, der, e', hc, hx, _⟩
      · rw [hr] at hr'
        cases hr'
      · exact absurd hx (hs call der e' hc)
  · intro c e h hr hs
    cases e with
    | none => rfl
    | some e =>
      rcases ((SignedCert_returned_error w ca hosts c e).1 h).2 with
        ⟨e', hr', _⟩ | ⟨call, der, e', hc, hx, _⟩
      · rw [hr] at hr'
        cases hr'
      · exact absurd hx (hs call der e' hc)
  · intro hr hnil
    rw [SignedCert_panicked]
    refine ⟨hr, ?_⟩
    cases hk : (w.GenerateKey 512).1 with
    | none => exact Or.inl rfl
    | some k =>
      obtain ⟨call, hc⟩ : ∃ call, (SignedCert w ca hosts).signCall = some call :=
        ⟨_, (SignedCert_signCall w ca hosts _).2 ⟨hr, k, hk, rfl⟩⟩
      obtain ⟨_, k', _, hcall⟩ := (SignedCert_signCall w ca hosts call).1 hc
      refine Or.inr ⟨call, hc, x509_CreateCertificate_nil w call ?_⟩
      subst hcall
      exact hnil
  · intro err
    exact ⟨rfl, rfl⟩

/-- Witness of C6: a failing random source and a failing signing primitive each give the
zero `Cert` with the wrapped error, a failing key generator gives a panic and no error,
and so does a leaf of the root that `CA` returned, whose `Template` is nil. -/
theorem errors_only_from_serial_or_signing_witness :
    (CA serialFailureWorld).outcome =
        .returned (Cert.zero, some ⟨"failed to generate serial number: EOF"⟩) ∧
      (SignedCert signFailureWorld sampleAuthority ["example.com"]).outcome =
        .returned (Cert.zero, some ⟨"Failed to create certificate: x509: unsupported key"⟩) ∧
      (CA keyFailureWorld).outcome = .panicked ∧
      (SignedCert sampleWorld sampleRoot ["example.com"]).outcome = .panicked ∧
      (Cert.zero = Cert.zero ∧ Cert.zero.Template = none ∧ Cert.zero.DER = [] ∧
        Cert.zero.PrivateKey = none) :=
  ⟨by rfl, by rfl, by rfl,
    (errors_only_from_serial_or_signing sampleWorld sampleRoot
      ["example.com"]).2.2.2.2.2.2.2.2.2.2.1 (by rfl) (Or.inl rfl),
    (errors_only_from_serial_or_signing serialFailureWorld sampleRoot []).2.2.1 Cert.zero
      ⟨"failed to generate serial number: EOF"⟩ (by rfl)⟩

/-- C7: `SignedCert` calls the signing primitive with issuer `ca.Template`, signing key
`ca.PrivateKey` and, as subject public key, the public half of the key generated in that
call, so the issuer and the signing key are never the leaf template or the generated key
unless the authority holds those very values; `CA` calls it with one template as subject
and as issuer and with the public and private halves of the one key it generated.
Pointer arguments are compared by their referents. -/
theorem signing_arguments (w : World) (ca : Cert) (hosts : List String) :
    (∀ call, (SignedCert w ca hosts).signCall = some call →
        call.parent = ca.Template ∧ call.priv = ca.PrivateKey ∧
          (∃ k, (w.GenerateKey 512).1 = some k ∧ call.pub = k.PublicKey) ∧
          (ca.Template ≠ some call.template → call.parent ≠ some call.template) ∧
          (ca.PrivateKey ≠ (w.GenerateKey 512).1 → call.priv ≠ (w.GenerateKey 512).1)) ∧
      (∀ call, (CA w).signCall = some call →
        call.parent = some call.template ∧
          ∃ k, (w.GenerateKey 512).1 = some k ∧ call.pub = k.PublicKey ∧
            call.priv = some k) ∧
      (((CA w).signCall ≠ none ↔
          (w.RandInt (Lsh 1 128)).2 = none ∧ (w.GenerateKey 512).1 ≠ none) ∧
        ((SignedCert w ca hosts).signCall ≠ none ↔
          (w.RandInt (Lsh 1 128)).2 = none ∧ (w.GenerateKey 512).1 ≠ none)) := by
  refine ⟨?_, ?_, ?_, ?_⟩
  · intro call h
    obtain ⟨_, k, hk, hc⟩ := (SignedCert_signCall w ca hosts call).1 h
    subst hc
    exact ⟨rfl, rfl, ⟨k, hk, rfl⟩, fun hne => hne, fun hne => hne⟩
  · intro call h
    obtain ⟨_, k, hk, hc⟩ := (CA_signCall w call).1 h
    subst hc
    exact ⟨rfl, k, hk, rfl, rfl⟩
  · constructor
    · intro h
      obtain ⟨call, hc⟩ := Option.ne_none_iff_exists'.1 h
      obtain ⟨hr, k, hk, _⟩ := (CA_signCall w call).1 hc
      exact ⟨hr, by simp [hk]⟩
    · rintro ⟨hr, hk⟩
      obtain ⟨k, hk⟩ := Option.ne_none_iff_exists'.1 hk
      rw [(CA_signCall w _).2 ⟨hr, k, hk, rfl⟩]
      simp
  · constructor
    · intro h
      obtain ⟨call, hc⟩ := Option.ne_none_iff_exists'.1 h
      obtain ⟨hr, k, hk, _⟩ := (SignedCert_signCall w ca hosts call).1 hc
      exact ⟨hr, by simp [hk]⟩
    · rintro ⟨hr, hk⟩
      obtain ⟨k, hk⟩ := Option.ne_none_iff_exists'.1 hk
      rw [(SignedCert_signCall w ca hosts _).2 ⟨hr, k, hk, rfl⟩]
      simp


/-- Witness of C7: the arguments of the signing primitive in the sample world, for a leaf
of an authority that holds a template and a key of its own. -/
theorem signing_arguments_witness :
    (SignedCert sampleWorld ⟨some sampleRootTemplate, [], some ⟨⟨77, 3⟩, 5⟩⟩ []).signCall =
        some ⟨sampleLeafTemplate [] [], some sampleRootTemplate, sampleKey.PublicKey,
          some ⟨⟨77, 3⟩, 5⟩⟩ ∧
      (some sampleRootTemplate = some sampleRootTemplate ∧
        some (⟨⟨77, 3⟩, 5⟩ : RSAPrivateKey) = some ⟨⟨77, 3⟩, 5⟩) :=
  ⟨by rfl,
    ((signing_arguments sampleWorld ⟨some sampleRootTemplate, [], some ⟨⟨77, 3⟩, 5⟩⟩ []).1
      ⟨sampleLeafTemplate [] [], some sampleRootTemplate, sampleKey.PublicKey,
        some ⟨⟨77, 3⟩, 5⟩⟩ (by rfl)).1,
    ((signing_arguments sampleWorld ⟨some sampleRootTemplate, [], some ⟨⟨77, 3⟩, 5⟩⟩ []).1
      ⟨sampleLeafTemplate [] [], some sampleRootTemplate, sampleKey.PublicKey,
        some ⟨⟨77, 3⟩, 5⟩⟩ (by rfl)).2.1⟩

/-- C8: the templates `CA` and `SignedCert` hand to the signing primitive have
`NotBefore` equal to the time read and `NotAfter` exactly 864000000000000000 nanoseconds
(10000 days of 24 hours) later; the duration `time.Hour * 24 * 10000` evaluated in
signed 64-bit arithmetic equals the exact product, which lies in the `int64` range, as
does the intermediate product `time.Hour * 24`. -/
theorem validity_window (w : World) (ca : Cert) (hosts : List String) :
    (∀ call, (CA w).signCall = some call →
        call.template.NotBefore = w.Now ∧
          call.template.NotAfter = ⟨w.Now.nanos + 864000000000000000⟩ ∧
          call.template.NotAfter.Sub call.template.NotBefore = 864000000000000000) ∧
      (∀ call, (SignedCert w ca hosts).signCall = some call →
        call.template.NotBefore = w.Now ∧
          call.template.NotAfter = ⟨w.Now.nanos + 864000000000000000⟩ ∧
          call.template.NotAfter.Sub call.template.NotBefore = 864000000000000000) ∧
      Duration.mul (Duration.mul Hour 24) 10000 = 864000000000000000 ∧
      Hour = 3600000000000 ∧
      Duration.mul Hour 24 = Hour * 24 ∧
      Duration.mul (Duration.mul Hour 24) 10000 = Hour * 24 * 10000 ∧
      (10000 : Int) * 24 * (3600 * 10 ^ 9) = 864000000000000000 ∧
      -(2 : Int) ^ 63 ≤ Hour * 24 ∧ Hour * 24 < 2 ^ 63 ∧
      -(2 : Int) ^ 63 ≤ Hour * 24 * 10000 ∧ Hour * 24 * 10000 < 2 ^ 63 := by
  refine ⟨?_, ?_, validity_value, by decide, by decide, by decide, by decide, by decide,
    by decide, by decide, by decide⟩
  · intro call h
    obtain ⟨_, k, _, hc⟩ := (CA_signCall w call).1 h
    subst hc
    refine ⟨rfl, ?_, ?_⟩
    · simp only [validity_value, Time.Add]
    · simp only [validity_value, Time.Add, Time.Sub]
      exact add_sub_cancel_left w.Now.nanos (864000000000000000 : Int)
  · intro call h
    obtain ⟨_, k, _, hc⟩ := (SignedCert_signCall w ca hosts call).1 h
    subst hc
    refine ⟨rfl, ?_, ?_⟩
    · simp only [validity_value, Time.Add]
    · simp only [validity_value, Time.Add, Time.Sub]
      exact add_sub_cancel_left w.Now.nanos (864000000000000000 : Int)


/-- Witness of C8: the validity window of the root template in the sample world. -/
theorem validity_window_witness :
    (CA sampleWorld).signCall =
        some ⟨sampleRootTemplate, some sampleRootTemplate, sampleKey.PublicKey, some sampleKey⟩ ∧
      sampleRootTemplate.NotBefore = sampleWorld.Now ∧
      sampleRootTemplate.NotAfter = ⟨sampleWorld.Now.nanos + 864000000000000000⟩ ∧
      sampleRootTemplate.NotAfter.Sub sampleRootTemplate.NotBefore = 864000000000000000 :=
  ⟨by rfl,
    (validity_window sampleWorld sampleRoot []).1
      ⟨sampleRootTemplate, some sampleRootTemplate, sampleKey.PublicKey, some sampleKey⟩
      (by rfl)⟩

/-- C10: `pemBlockForKey` returns a block of type `RSA PRIVATE KEY` carrying the PKCS#1
encoding for an RSA private key (a `*rsa.PrivateKey` that is not nil and that the
marshaller encodes), a block of type `EC PRIVATE KEY` carrying the EC encoding for an
ECDSA private key that marshals without error, and nil for a value of every other type; a
block it returns has one of these two types and carries the encoding of the key of that
type, and it returns nil only for a value of another type. For a nil pointer of either key
type the marshaller panics and nothing is returned; an EC key that fails to marshal ends
the process with status 2. -/
theorem pemBlockForKey_by_type (w : World) :
    (∀ k b, w.MarshalPKCS1PrivateKey k = .returned b →
        pemBlockForKey w (.rsaPrivateKey (some k)) =
          .returned (some ⟨"RSA PRIVATE KEY", [], b⟩)) ∧
      (∀ k b, w.MarshalECPrivateKey k = .returned (b, none) →
        pemBlockForKey w (.ecdsaPrivateKey (some k)) =
          .returned (some ⟨"EC PRIVATE KEY", [], b⟩)) ∧
      (∀ t, pemBlockForKey w (.other t) = .returned none) ∧
      (∀ priv b, pemBlockForKey w priv = .returned (some b) →
        (b.Type_ = "RSA PRIVATE KEY" ∧ b.Headers = [] ∧
            ∃ k, priv = .rsaPrivateKey (some k) ∧
              w.MarshalPKCS1PrivateKey k = .returned b.Bytes) ∨
          (b.Type_ = "EC PRIVATE KEY" ∧ b.Headers = [] ∧
            ∃ k, priv = .ecdsaPrivateKey (some k) ∧
              w.MarshalECPrivateKey k = .returned (b.Bytes, none))) ∧
      (∀ priv, pemBlockForKey w priv = .returned none ↔ ∃ t, priv = .other t) ∧
      pemBlockForKey w (.rsaPrivateKey none) = .panicked ∧
      pemBlockForKey w (.ecdsaPrivateKey none) = .panicked ∧
      (∀ k b e, w.MarshalECPrivateKey k = .returned (b, some e) →
        pemBlockForKey w (.ecdsaPrivateKey (some k)) =
          .exited 2 ("Unable to marshal ECDSA private key: " ++ e.msg)) := by
  refine ⟨?_, ?_, fun t => rfl, ?_, ?_, rfl, rfl, ?_⟩
  · intro k b h
    simp [pemBlockForKey, x509_MarshalPKCS1PrivateKey, h]
  · intro k b h
    simp [pemBlockForKey, x509_MarshalECPrivateKey, h]
  · intro priv b h
    cases priv with
    | rsaPrivateKey k =>
      cases k with
      | none => simp [pemBlockForKey, x509_MarshalPKCS1PrivateKey] at h
      | some k =>
        left
        cases hm : w.MarshalPKCS1PrivateKey k with
        | returned der =>
          simp only [pemBlockForKey, x509_MarshalPKCS1PrivateKey, hm, Outcome.returned.injEq,
            Option.some.injEq] at h
          subst h
          exact ⟨rfl, rfl, k, rfl, hm⟩
        | panicked => simp [pemBlockForKey, x509_MarshalPKCS1PrivateKey, hm] at h
        | exited code text => simp [pemBlockForKey, x509_MarshalPKCS1PrivateKey, hm] at h
    | ecdsaPrivateKey k =>
      cases k with
      | none => simp [pemBlockForKey, x509_MarshalECPrivateKey] at h
      | some k =>
        right
        cases hm : w.MarshalECPrivateKey k with
        | returned r =>
          obtain ⟨der, e⟩ := r
          cases e with
          | some e => simp [pemBlockForKey, x509_MarshalECPrivateKey, hm] at h
          | none =>
            simp only [pemBlockForKey, x509_MarshalECPrivateKey, hm, Outcome.returned.injEq,
              Option.some.injEq] at h
            subst h
            exact ⟨rfl, rfl, k, rfl, hm⟩
        | panicked => simp [pemBlockForKey, x509_MarshalECPrivateKey, hm] at h
        | exited code text => simp [pemBlockForKey, x509_MarshalECPrivateKey, hm] at h
    | other t => simp [pemBlockForKey] at h
  · intro priv
    cases priv with
    | rsaPrivateKey k =>
      cases k with
      | none => simp [pemBlockForKey, x509_MarshalPKCS1PrivateKey]
      | some k =>
        cases hm : w.MarshalPKCS1PrivateKey k <;>
          simp [pemBlockForKey, x509_MarshalPKCS1PrivateKey, hm]
    | ecdsaPrivateKey k =>
      cases k with
      | none => simp [pemBlockForKey, x509_MarshalECPrivateKey]
      | some k =>
        cases hm : w.MarshalECPrivateKey k with
        | returned r =>
          obtain ⟨der, e⟩ := r
          cases e <;> simp [pemBlockForKey, x509_MarshalECPrivateKey, hm]
        | panicked => simp [pemBlockForKey, x509_MarshalECPrivateKey, hm]
        | exited code text => simp [pemBlockForKey, x509_MarshalECPrivateKey, hm]
    | other t => simp [pemBlockForKey]
  · intro k b e h
    simp [pemBlockForKey, x509_MarshalECPrivateKey, h]

/-- Witness of C10: the kinds of argument in the sample world, and an EC key that fails
to marshal. -/
theorem pemBlockForKey_by_type_witness :
    pemBlockForKey sampleWorld (.rsaPrivateKey (some sampleKey)) =
        .returned (some ⟨"RSA PRIVATE KEY", [], [48, 130]⟩) ∧
      pemBlockForKey sampleWorld (.ecdsaPrivateKey (some ⟨1, 2, 3⟩)) =
        .returned (some ⟨"EC PRIVATE KEY", [], [48, 119]⟩) ∧
      pemBlockForKey sampleWorld (.other "string") = .returned none ∧
      pemBlockForKey sampleWorld (.rsaPrivateKey none) = .panicked ∧
      pemBlockForKey signFailureWorld (.ecdsaPrivateKey (some ⟨1, 2, 3⟩)) =
        .exited 2 "Unable to marshal ECDSA private key: x509: unknown elliptic curve" :=
  ⟨(pemBlockForKey_by_type sampleWorld).1 sampleKey [48, 130] rfl,
    (pemBlockForKey_by_type sampleWorld).2.1 ⟨1, 2, 3⟩ [48, 119] rfl,
    (pemBlockForKey_by_type sampleWorld).2.2.1 "string",
    (pemBlockForKey_by_type sampleWorld).2.2.2.2.2.1,
    (pemBlockForKey_by_type signFailureWorld).2.2.2.2.2.2.2 ⟨1, 2, 3⟩ []
      ⟨"x509: unknown elliptic curve"⟩ rfl⟩

/-- C9: `Cert.String()` is the PEM encoding of one block of type `CERTIFICATE` without
headers whose bytes are `cert.DER` (the BEGIN line, the base64 text of the bytes in lines
of 64 characters, the END line; the encoder does not fail), and `pem.Decode` of that text
gives a block of type `CERTIFICATE` without headers whose bytes are `cert.DER`, with no
input left. -/
theorem Cert_String_roundtrip (cert : Cert) :
    Encode ⟨"CERTIFICATE", [], cert.DER⟩ = some cert.String.toList ∧
      cert.String.toList =
        "-----BEGIN CERTIFICATE-----\n".toList ++ lineBreaker 0 (base64Encode cert.DER) ++
          "-----END CERTIFICATE-----\n".toList ∧
      Decode cert.String.toList = (some ⟨"CERTIFICATE", [], cert.DER⟩, []) := by
  have henc : Encode ⟨"CERTIFICATE", [], cert.DER⟩ =
      some ("-----BEGIN CERTIFICATE-----\n".toList ++ lineBreaker 0 (base64Encode cert.DER) ++
        "-----END CERTIFICATE-----\n".toList) := by
    have h : (Encode ⟨"CERTIFICATE", [], cert.DER⟩) =
        some ("-----BEGIN CERTIFICATE-----\n".toList ++
          lineBreaker 0 (base64Encode cert.DER) ++ pemEnd.tail ++ "CERTIFICATE".toList ++
          "-----\n".toList) := rfl
    rw [h, List.append_assoc, List.append_assoc]
    rfl
  have hstr : cert.String.toList =
      "-----BEGIN CERTIFICATE-----\n".toList ++ lineBreaker 0 (base64Encode cert.DER) ++
        "-----END CERTIFICATE-----\n".toList := by
    show (Encode ⟨"CERTIFICATE", [], cert.DER⟩).getD [] = _
    rw [henc]
    rfl
  refine ⟨by rw [henc, hstr], hstr, ?_⟩
  rw [hstr]
  by_cases hd : cert.DER = []
  · rw [hd]
    rfl
  · obtain ⟨c, cs, hs, hc⟩ := base64Encode_head cert.DER hd
    have hne : base64Encode cert.DER ≠ [] := by
      rw [hs]
      exact List.cons_ne_nil _ _
    obtain ⟨b, hb, hhead, hmem, hfilter⟩ :=
      lineBreaker_eq (fun c => c ≠ '\n' ∧ c ≠ '\r') (by decide) (base64Encode cert.DER) hne 0
    have hchars : ∀ x ∈ b, x ∈ encodeStd ∨ x = padChar ∨ x = '\n' := by
      intro x hx
      rcases hmem x hx with h | h
      · rcases base64Encode_chars cert.DER x h with h' | h'
        · exact Or.inl h'
        · exact Or.inr (Or.inl h')
      · exact Or.inr (Or.inr h)
    have hbhead : ∃ c cs, b = c :: cs ∧ c ∈ encodeStd := by
      rw [hs] at hhead
      cases b with
      | nil => cases hhead
      | cons y ys =>
        simp only [List.head?_cons, Option.some.injEq] at hhead
        exact ⟨y, ys, rfl, hhead ▸ hc⟩
    have hself : (base64Encode cert.DER).filter (fun c => c ≠ '\n' ∧ c ≠ '\r') =
        base64Encode cert.DER := by
      rw [List.filter_eq_self]
      intro x hx
      have h1 : x ≠ '\n' := by
        rintro rfl
        rcases base64Encode_chars cert.DER _ hx with h | h
        · exact absurd h (by decide)
        · exact absurd h (by decide)
      have h2 : x ≠ '\r' := by
        rintro rfl
        rcases base64Encode_chars cert.DER _ hx with h | h
        · exact absurd h (by decide)
        · exact absurd h (by decide)
      simp [h1, h2]
    have hdec : base64Decode b = some cert.DER := by
      unfold base64Decode
      rw [hfilter, hself]
      exact decodeQuanta_base64Encode cert.DER
    have htext : "-----BEGIN CERTIFICATE-----\n".toList ++ lineBreaker 0 (base64Encode cert.DER) ++
        "-----END CERTIFICATE-----\n".toList =
        "-----BEGIN CERTIFICATE-----\n".toList ++
          (b ++ (pemEnd ++ "CERTIFICATE-----\n".toList)) := by
      rw [hb, List.append_assoc, List.append_assoc]
      rfl
    rw [htext]
    exact decodeLoop_certificate _ _ b cert.DER hbhead hchars hdec


/-- Witness of C9: the PEM text of the sample root and its decoding. -/
theorem Cert_String_roundtrip_witness :
    sampleRoot.String = "-----BEGIN CERTIFICATE-----\nMIIBCg==\n-----END CERTIFICATE-----\n" ∧
      Decode "-----BEGIN CERTIFICATE-----\nMIIBCg==\n-----END CERTIFICATE-----\n".toList =
        (some ⟨"CERTIFICATE", [], [48, 130, 1, 10]⟩, []) :=
  ⟨by rfl, (Cert_String_roundtrip sampleRoot).2.2⟩

end Gimmecerts
